import Mathlib

/-!
Verification development for the smart_rpc repository: a shallow embedding of
the wire codec (`smart_rpc/messages.py`), the error taxonomy
(`smart_rpc/errors.py`), the message dispatcher (`smart_rpc/message_hander.py`)
and the annotation compiler (`smart_rpc/rpc_annotation.py`), together with
proofs and refutations of the specification's claims about them.

Modelling conventions:
- Python strings are embedded as `List Char` for wire frames and as `String`
  for identifier-like data (method names, dictionary keys, error codes).
- JSON values (the payload/headers universe handled by `orjson`) are embedded
  as the `Json` mutual inductive below.  JSON numbers are modelled as integers
  (floating point is outside the embedding); inter-token whitespace and the
  UTF-8 byte level are not modelled.  `orjson.dumps` is modelled by
  `Json.dumpVal` (compact output, no spaces) and `orjson.loads` of the two
  brace-delimited frame segments by `Json.parseObjTop` (the segments always
  begin with a brace, so only the object production is reachable at top level).
- Python dictionaries are embedded as insertion-ordered association lists;
  `d[k] = v` is `setKey` (overwrite in place, else append), iteration follows
  list order.
-/

namespace SmartRpc

/-- Decidable equality for `Except`, so that concrete witness instances can
be checked by `decide`. -/
instance {ε α : Type} [DecidableEq ε] [DecidableEq α] : DecidableEq (Except ε α) :=
  fun x y =>
    match x, y with
    | .ok a, .ok b =>
      if h : a = b then .isTrue (h ▸ rfl) else .isFalse (fun he => h (by injection he))
    | .error a, .error b =>
      if h : a = b then .isTrue (h ▸ rfl) else .isFalse (fun he => h (by injection he))
    | .ok _, .error _ => .isFalse (fun he => by injection he)
    | .error _, .ok _ => .isFalse (fun he => by injection he)

mutual

/-- Embedding of the JSON value universe handled by `orjson` in
`smart_rpc/messages.py`: null, booleans, (integer) numbers, strings, arrays
and objects.  Arrays and objects are mutual inductives so that structural
mutual induction is available. -/
inductive Json where
  | null : Json
  | bool (b : Bool) : Json
  | num (n : Int) : Json
  | str (s : String) : Json
  | arr (elems : JsonArr) : Json
  | obj (fields : JsonObj) : Json
  deriving DecidableEq

inductive JsonArr where
  | nil : JsonArr
  | cons (hd : Json) (tl : JsonArr) : JsonArr
  deriving DecidableEq

inductive JsonObj where
  | nil : JsonObj
  | cons (key : String) (val : Json) (tl : JsonObj) : JsonObj
  deriving DecidableEq

end

namespace JsonObj

/-- Python `dict.get(k, None)`: first (and in dict-built objects only)
binding of `k`. -/
def get : JsonObj → String → Option Json
  | .nil, _ => none
  | .cons k v tl, key => if k = key then some v else get tl key

/-- Python `d[k] = v`: overwrite the binding in place if the key is present
(dicts keep the original insertion position), otherwise append. -/
def setKey : JsonObj → String → Json → JsonObj
  | .nil, key, v => .cons key v .nil
  | .cons k w tl, key, v =>
      if k = key then .cons k v tl else .cons k w (setKey tl key v)

/-- Keys of the object in insertion order. -/
def keys : JsonObj → List String
  | .nil => []
  | .cons k _ tl => k :: keys tl

end JsonObj

/-- Digit character for a value below 10. -/
def digitChar (d : Nat) : Char := Char.ofNat (48 + d)

/-- Decimal digits of a natural number, most significant first. -/
def natDigits (n : Nat) : List Char :=
  if _ : n < 10 then [digitChar n]
  else natDigits (n / 10) ++ [digitChar (n % 10)]
  decreasing_by exact Nat.div_lt_self (by omega) (by omega)

/-- Decimal rendering of an integer, as `orjson` prints it. -/
def intChars (n : Int) : List Char :=
  if n < 0 then '-' :: natDigits (-n).toNat else natDigits n.toNat

/-- Uppercase hexadecimal digit for a value below 16. -/
def hexDigit (d : Nat) : Char :=
  if d < 10 then Char.ofNat (48 + d) else Char.ofNat (55 + d)

/-- JSON escape of one character: `"` and `\` get a backslash escape, control
characters are emitted as a `\u00XX` sequence, everything else is itself. -/
def escChar (c : Char) : List Char :=
  if c = '"' then ['\\', '"']
  else if c = '\\' then ['\\', '\\']
  else if c.toNat < 32 then
    ['\\', 'u', '0', '0', hexDigit (c.toNat / 16), hexDigit (c.toNat % 16)]
  else [c]

/-- JSON escape of a character sequence. -/
def escChars : List Char → List Char
  | [] => []
  | c :: cs => escChar c ++ escChars cs

/-- Serialized form of a JSON string (quotes included). -/
def strChars (s : String) : List Char := '"' :: escChars s.data ++ ['"']

mutual

/-- Serialization of a JSON value, mirroring `orjson.dumps` (compact form,
no whitespace). -/
def Json.dumpVal : Json → List Char
  | .null => 'n' :: ['u', 'l', 'l']
  | .bool true => 't' :: ['r', 'u', 'e']
  | .bool false => 'f' :: ['a', 'l', 's', 'e']
  | .num n => intChars n
  | .str s => strChars s
  | .arr a => '[' :: JsonArr.dumpItems a ++ [']']
  | .obj o => '{' :: JsonObj.dumpItems o ++ ['}']

/-- Comma-separated serialization of array elements. -/
def JsonArr.dumpItems : JsonArr → List Char
  | .nil => []
  | .cons v .nil => Json.dumpVal v
  | .cons v tl => Json.dumpVal v ++ ',' :: JsonArr.dumpItems tl

/-- Comma-separated serialization of object members. -/
def JsonObj.dumpItems : JsonObj → List Char
  | .nil => []
  | .cons k v .nil => strChars k ++ ':' :: Json.dumpVal v
  | .cons k v tl => strChars k ++ ':' :: Json.dumpVal v ++ ',' :: JsonObj.dumpItems tl

end

/-- Numeric value of a hexadecimal digit character, if it is one. -/
def hexVal (c : Char) : Option Nat :=
  if '0' ≤ c ∧ c ≤ '9' then some (c.toNat - 48)
  else if 'A' ≤ c ∧ c ≤ 'F' then some (c.toNat - 55)
  else if 'a' ≤ c ∧ c ≤ 'f' then some (c.toNat - 87)
  else none

/-- Unescaped character for a single-character JSON escape sequence. -/
def unescChar (e : Char) : Option Char :=
  if e = '"' then some '"'
  else if e = '\\' then some '\\'
  else if e = '/' then some '/'
  else if e = 'n' then some '\n'
  else if e = 't' then some '\t'
  else if e = 'r' then some '\r'
  else if e = 'b' then some (Char.ofNat 8)
  else if e = 'f' then some (Char.ofNat 12)
  else none

/-- Parse the body of a JSON string (the opening quote already consumed),
returning the decoded characters and the remaining input. -/
def parseStrBody : List Char → Option (List Char × List Char)
  | [] => none
  | c :: rest =>
    if c = '"' then some ([], rest)
    else if c = '\\' then
      match rest with
      | [] => none
      | e :: rest2 =>
        if e = 'u' then
          match rest2 with
          | h1 :: h2 :: h3 :: h4 :: rest3 =>
            match hexVal h1, hexVal h2, hexVal h3, hexVal h4 with
            | some a, some b, some c3, some d =>
              (parseStrBody rest3).map
                (fun p => (Char.ofNat (a * 4096 + b * 256 + c3 * 16 + d) :: p.1, p.2))
            | _, _, _, _ => none
          | _ => none
        else
          match unescChar e with
          | some c2 => (parseStrBody rest2).map (fun p => (c2 :: p.1, p.2))
          | none => none
    else (parseStrBody rest).map (fun p => (c :: p.1, p.2))

/-- Longest prefix of decimal digits, and the rest of the input. -/
def spanDigits : List Char → List Char × List Char
  | [] => ([], [])
  | c :: rest =>
    if c.isDigit then
      let p := spanDigits rest
      (c :: p.1, p.2)
    else ([], c :: rest)

/-- Value of a digit string, accumulator style. -/
def digitsVal : List Char → Nat → Nat
  | [], acc => acc
  | c :: rest, acc => digitsVal rest (acc * 10 + (c.toNat - 48))

mutual

/-- Fuel-indexed parser for a JSON value, modelling `orjson.loads`
(restricted to the integer-number, whitespace-free fragment; the model is
only ever applied to frame segments, which carry no inter-token
whitespace). -/
def parseVal : Nat → List Char → Option (Json × List Char)
  | 0, _ => none
  | fuel + 1, cs =>
    match cs with
    | [] => none
    | c :: rest =>
      if c = 'n' then
        match rest with
        | 'u' :: 'l' :: 'l' :: r => some (.null, r)
        | _ => none
      else if c = 't' then
        match rest with
        | 'r' :: 'u' :: 'e' :: r => some (.bool true, r)
        | _ => none
      else if c = 'f' then
        match rest with
        | 'a' :: 'l' :: 's' :: 'e' :: r => some (.bool false, r)
        | _ => none
      else if c = '"' then
        (parseStrBody rest).map (fun p => (.str (String.mk p.1), p.2))
      else if c = '[' then
        (parseArrBody fuel rest).map (fun p => (.arr p.1, p.2))
      else if c = '{' then
        (parseObjBody fuel rest).map (fun p => (.obj p.1, p.2))
      else if c = '-' then
        match spanDigits rest with
        | ([], _) => none
        | (d :: ds, r) => some (.num (-(digitsVal (d :: ds) 0 : Int)), r)
      else if c.isDigit then
        let p := spanDigits rest
        some (.num (digitsVal (c :: p.1) 0), p.2)
      else none

/-- Parse an array body (the opening bracket already consumed). -/
def parseArrBody : Nat → List Char → Option (JsonArr × List Char)
  | 0, _ => none
  | _ + 1, [] => none
  | fuel + 1, c :: rest =>
    if c = ']' then some (.nil, rest) else parseArrItems fuel (c :: rest)

/-- Parse one or more comma-separated array elements followed by the closing
bracket. -/
def parseArrItems : Nat → List Char → Option (JsonArr × List Char)
  | 0, _ => none
  | fuel + 1, cs =>
    (parseVal fuel cs).bind (fun p =>
      match p.2 with
      | ']' :: r2 => some (.cons p.1 .nil, r2)
      | ',' :: r2 => (parseArrItems fuel r2).map (fun q => (.cons p.1 q.1, q.2))
      | _ => none)

/-- Parse an object body (the opening brace already consumed). -/
def parseObjBody : Nat → List Char → Option (JsonObj × List Char)
  | 0, _ => none
  | _ + 1, [] => none
  | fuel + 1, c :: rest =>
    if c = '}' then some (.nil, rest) else parseObjItems fuel .nil (c :: rest)

/-- Parse one or more comma-separated object members followed by the closing
brace, accumulating bindings with Python dict semantics (a repeated key
overwrites in place, so the last duplicate wins, as in `dict` building). -/
def parseObjItems : Nat → JsonObj → List Char → Option (JsonObj × List Char)
  | 0, _, _ => none
  | _ + 1, _, [] => none
  | fuel + 1, acc, c :: rest =>
    if c = '"' then
      (parseStrBody rest).bind (fun kp =>
        match kp.2 with
        | ':' :: r2 =>
          (parseVal fuel r2).bind (fun vp =>
            let acc2 := acc.setKey (String.mk kp.1) vp.1
            match vp.2 with
            | '}' :: r4 => some (acc2, r4)
            | ',' :: r4 => parseObjItems fuel acc2 r4
            | _ => none)
        | _ => none)
    else none

end

/-- Parse a complete JSON document: the whole input must be consumed, as with
`orjson.loads`.  The fuel `3 * length + 3` dominates the recursion depth of
any parse of the given input. -/
def Json.parseTop (cs : List Char) : Option Json :=
  match parseVal (3 * cs.length + 3) cs with
  | some (v, []) => some v
  | _ => none

/-- Parse a frame segment as a JSON object.  Frame segments always begin at a
brace, so `orjson.loads` can only produce a dict (or fail) there. -/
def Json.parseObjTop (cs : List Char) : Option JsonObj :=
  match Json.parseTop cs with
  | some (.obj o) => some o
  | _ => none

/-- Python truthiness of a JSON value (`None`, `False`, `0`, `''`, `[]` and
`\x7b\x7d` are falsy). -/
def Json.truthy : Json → Bool
  | .null => false
  | .bool b => b
  | .num n => n != 0
  | .str s => !s.isEmpty
  | .arr .nil => false
  | .arr (.cons _ _) => true
  | .obj .nil => false
  | .obj (.cons _ _ _) => true

/-- Whether an object binds a key. -/
def JsonObj.hasKey : JsonObj → String → Bool
  | .nil, _ => false
  | .cons k _ tl, key => k = key || hasKey tl key

/-- Concatenation of two objects (used to state parser lemmas). -/
def JsonObj.append : JsonObj → JsonObj → JsonObj
  | .nil, b => b
  | .cons k v tl, b => .cons k v (append tl b)

mutual

/-- Well-formedness of a JSON value as a Python object: every object node has
pairwise distinct keys (Python dicts cannot hold duplicates). -/
def Json.wfB : Json → Bool
  | .null => true
  | .bool _ => true
  | .num _ => true
  | .str _ => true
  | .arr a => JsonArr.wfB a
  | .obj o => JsonObj.wfB o

/-- Well-formedness of an array of Python-side JSON values. -/
def JsonArr.wfB : JsonArr → Bool
  | .nil => true
  | .cons v tl => Json.wfB v && JsonArr.wfB tl

/-- Well-formedness of an object of Python-side JSON values. -/
def JsonObj.wfB : JsonObj → Bool
  | .nil => true
  | .cons k v tl => !JsonObj.hasKey tl k && Json.wfB v && JsonObj.wfB tl

end

mutual

/-- Fuel bound for parsing a serialized value. -/
def Json.jsize : Json → Nat
  | .null => 1
  | .bool _ => 1
  | .num _ => 1
  | .str _ => 1
  | .arr a => 2 + JsonArr.jsizeArr a
  | .obj o => 2 + JsonObj.jsizeObj o

/-- Fuel bound for parsing serialized array items. -/
def JsonArr.jsizeArr : JsonArr → Nat
  | .nil => 0
  | .cons v tl => 1 + Json.jsize v + JsonArr.jsizeArr tl

/-- Fuel bound for parsing serialized object members. -/
def JsonObj.jsizeObj : JsonObj → Nat
  | .nil => 0
  | .cons _ v tl => 1 + Json.jsize v + JsonObj.jsizeObj tl

end

/-- The input does not begin with a decimal digit (continuation condition for
number parsing). -/
def notDigitStart (cs : List Char) : Prop :=
  ∀ c, cs.head? = some c → c.isDigit = false

theorem notDigitStart_nil : notDigitStart [] := by
  intro c h
  simp at h

theorem notDigitStart_cons {c : Char} (h : c.isDigit = false) (cs : List Char) :
    notDigitStart (c :: cs) := by
  intro d hd
  simp at hd
  subst hd
  exact h

theorem char_toNat_ofNat {n : Nat} (h : n < 55296) : (Char.ofNat n).toNat = n := by
  simp [Char.ofNat, Char.toNat]
  split
  · rfl
  · next hv => exact absurd (Or.inl (by omega)) hv

theorem digitChar_isDigit {d : Nat} (h : d < 10) : (digitChar d).isDigit = true := by
  interval_cases d <;> decide

theorem digitChar_val {d : Nat} (h : d < 10) : (digitChar d).toNat - 48 = d := by
  interval_cases d <;> decide

theorem natDigits_ne_nil (n : Nat) : natDigits n ≠ [] := by
  rw [natDigits]
  split
  · simp
  · simp

theorem natDigits_all_digits (n : Nat) : ∀ c ∈ natDigits n, c.isDigit = true := by
  induction n using Nat.strong_induction_on with
  | _ n ih =>
    rw [natDigits]
    split
    · next h =>
      intro c hc
      simp at hc
      subst hc
      exact digitChar_isDigit h
    · next h =>
      intro c hc
      simp at hc
      rcases hc with hc | hc
      · exact ih (n / 10) (Nat.div_lt_self (by omega) (by omega)) c hc
      · subst hc
        exact digitChar_isDigit (Nat.mod_lt _ (by omega))

theorem digitsVal_append (a b : List Char) (acc : Nat) :
    digitsVal (a ++ b) acc = digitsVal b (digitsVal a acc) := by
  induction a generalizing acc with
  | nil => simp [digitsVal]
  | cons c tl ih => simp [digitsVal, ih]

theorem digitsVal_natDigits (n : Nat) :
    ∀ acc, digitsVal (natDigits n) acc = acc * 10 ^ (natDigits n).length + n := by
  induction n using Nat.strong_induction_on with
  | _ n ih =>
    intro acc
    rw [natDigits]
    split
    · next h =>
      simp [digitsVal, digitChar_val h, pow_one]
    · next h =>
      have hq := ih (n / 10) (Nat.div_lt_self (by omega) (by omega))
      have hlt : n % 10 < 10 := Nat.mod_lt n (by omega)
      rw [digitsVal_append, hq acc]
      simp only [digitsVal, List.length_append, List.length_singleton, pow_succ]
      rw [digitChar_val hlt]
      calc (acc * 10 ^ (natDigits (n / 10)).length + n / 10) * 10 + n % 10
          = acc * (10 ^ (natDigits (n / 10)).length * 10) + (n / 10 * 10 + n % 10) := by
            ring
        _ = acc * (10 ^ (natDigits (n / 10)).length * 10) + n := by
            rw [Nat.div_add_mod']

theorem digitsVal_natDigits_zero (n : Nat) : digitsVal (natDigits n) 0 = n := by
  rw [digitsVal_natDigits]
  simp

theorem spanDigits_append {ds : List Char} (hds : ∀ c ∈ ds, c.isDigit = true)
    {rest : List Char} (hrest : notDigitStart rest) :
    spanDigits (ds ++ rest) = (ds, rest) := by
  induction ds with
  | nil =>
    cases rest with
    | nil => simp [spanDigits]
    | cons c r =>
      have := hrest c (by simp)
      simp [spanDigits, this]
  | cons c tl ih =>
    have hc := hds c (by simp)
    have htl : ∀ x ∈ tl, x.isDigit = true := fun x hx => hds x (by simp [hx])
    simp [spanDigits, hc, ih htl]

theorem hexVal_hexDigit {d : Nat} (h : d < 16) : hexVal (hexDigit d) = some d := by
  interval_cases d <;> decide

theorem parseStrBody_quote (rest : List Char) :
    parseStrBody ('"' :: rest) = some ([], rest) := by
  conv_lhs => unfold parseStrBody
  simp

theorem parseStrBody_escQuote (cs : List Char) :
    parseStrBody ('\\' :: '"' :: cs)
      = (parseStrBody cs).map (fun p => ('"' :: p.1, p.2)) := by
  conv_lhs => unfold parseStrBody
  simp [unescChar]

theorem parseStrBody_escBack (cs : List Char) :
    parseStrBody ('\\' :: '\\' :: cs)
      = (parseStrBody cs).map (fun p => ('\\' :: p.1, p.2)) := by
  conv_lhs => unfold parseStrBody
  simp [unescChar]

theorem parseStrBody_escU {h1 h2 h3 h4 : Char} {a b c3 d : Nat}
    (e1 : hexVal h1 = some a) (e2 : hexVal h2 = some b)
    (e3 : hexVal h3 = some c3) (e4 : hexVal h4 = some d) (cs : List Char) :
    parseStrBody ('\\' :: 'u' :: h1 :: h2 :: h3 :: h4 :: cs)
      = (parseStrBody cs).map
          (fun p => (Char.ofNat (a * 4096 + b * 256 + c3 * 16 + d) :: p.1, p.2)) := by
  conv_lhs => unfold parseStrBody
  simp [e1, e2, e3, e4]

theorem parseStrBody_other {c : Char} (hq : c ≠ '"') (hb : c ≠ '\\') (cs : List Char) :
    parseStrBody (c :: cs) = (parseStrBody cs).map (fun p => (c :: p.1, p.2)) := by
  conv_lhs => unfold parseStrBody
  simp [hq, hb]

theorem parseStrBody_escChars (s : List Char) :
    ∀ rest, parseStrBody (escChars s ++ '"' :: rest) = some (s, rest) := by
  induction s with
  | nil =>
    intro rest
    simp [escChars, parseStrBody_quote]
  | cons c tl ih =>
    intro rest
    by_cases hq : c = '"'
    · subst hq
      simp [escChars, escChar, parseStrBody_escQuote, ih]
    · by_cases hb : c = '\\'
      · subst hb
        simp [escChars, escChar, parseStrBody_escBack, ih]
      · by_cases hctl : c.toNat < 32
        · have h0 : hexVal '0' = some 0 := by decide
          have h16 : c.toNat / 16 < 16 := by omega
          have hm16 : c.toNat % 16 < 16 := by omega
          have hchar : Char.ofNat (c.toNat / 16 * 16 + c.toNat % 16) = c := by
            have heq : c.toNat / 16 * 16 + c.toNat % 16 = c.toNat := by
              omega
            rw [heq, Char.ofNat_toNat]
          simp only [escChars, escChar, if_neg hq, if_neg hb, if_pos hctl,
            List.cons_append, List.nil_append, List.append_assoc]
          rw [parseStrBody_escU h0 h0 (hexVal_hexDigit h16) (hexVal_hexDigit hm16), ih]
          simp [hchar]
        · simp only [escChars, escChar, if_neg hq, if_neg hb, if_neg hctl,
            List.cons_append, List.nil_append]
          rw [parseStrBody_other hq hb, ih]
          rfl

theorem parseVal_minus (f : Nat) {cs : List Char} {d : Char} {ds r : List Char}
    (h : spanDigits cs = (d :: ds, r)) :
    parseVal (f + 1) ('-' :: cs) = some (.num (-(digitsVal (d :: ds) 0 : Int)), r) := by
  conv_lhs => unfold parseVal
  simp [h]

theorem parseVal_digit (f : Nat) {c : Char} (hc : c.isDigit = true) (cs : List Char) :
    parseVal (f + 1) (c :: cs) =
      some (.num (digitsVal (c :: (spanDigits cs).1) 0), (spanDigits cs).2) := by
  have hn : c ≠ 'n' := by intro h; rw [h] at hc; exact absurd hc (by decide)
  have ht : c ≠ 't' := by intro h; rw [h] at hc; exact absurd hc (by decide)
  have hf : c ≠ 'f' := by intro h; rw [h] at hc; exact absurd hc (by decide)
  have hq : c ≠ '"' := by intro h; rw [h] at hc; exact absurd hc (by decide)
  have hl : c ≠ '[' := by intro h; rw [h] at hc; exact absurd hc (by decide)
  have hb : c ≠ '{' := by intro h; rw [h] at hc; exact absurd hc (by decide)
  have hm : c ≠ '-' := by intro h; rw [h] at hc; exact absurd hc (by decide)
  conv_lhs => unfold parseVal
  simp [hn, ht, hf, hq, hl, hb, hm, hc]

theorem parseVal_intChars (n : Int) (f : Nat) (rest : List Char)
    (hf : 1 ≤ f) (hrest : notDigitStart rest) :
    parseVal f (intChars n ++ rest) = some (.num n, rest) := by
  obtain ⟨f', rfl⟩ : ∃ f', f = f' + 1 := ⟨f - 1, by omega⟩
  by_cases hneg : n < 0
  · simp only [intChars, if_pos hneg, List.cons_append]
    obtain ⟨d, ds, hds⟩ : ∃ d ds, natDigits (-n).toNat = d :: ds := by
      cases h : natDigits (-n).toNat with
      | nil => exact absurd h (natDigits_ne_nil _)
      | cons d ds => exact ⟨d, ds, rfl⟩
    have hspan : spanDigits (natDigits (-n).toNat ++ rest) = (d :: ds, rest) := by
      rw [spanDigits_append (natDigits_all_digits _) hrest, hds]
    rw [parseVal_minus f' hspan]
    have hval : digitsVal (d :: ds) 0 = (-n).toNat := by
      rw [← hds, digitsVal_natDigits_zero]
    rw [hval]
    have : -((-n).toNat : Int) = n := by omega
    rw [this]
  · simp only [intChars, if_neg hneg]
    obtain ⟨d, ds, hds⟩ : ∃ d ds, natDigits n.toNat = d :: ds := by
      cases h : natDigits n.toNat with
      | nil => exact absurd h (natDigits_ne_nil _)
      | cons d ds => exact ⟨d, ds, rfl⟩
    have hall := natDigits_all_digits n.toNat
    rw [hds]
    rw [hds] at hall
    have hd : d.isDigit = true := hall d (by simp)
    have hdstl : ∀ x ∈ ds, x.isDigit = true := fun x hx => hall x (by simp [hx])
    simp only [List.cons_append]
    rw [parseVal_digit f' hd]
    rw [spanDigits_append hdstl hrest]
    have hval : digitsVal (d :: ds) 0 = n.toNat := by
      rw [← hds, digitsVal_natDigits_zero]
    rw [hval]
    have : (n.toNat : Int) = n := by omega
    rw [this]

theorem notDigitStart_comma (cs : List Char) : notDigitStart (',' :: cs) :=
  notDigitStart_cons (by decide) cs

theorem notDigitStart_rbracket (cs : List Char) : notDigitStart (']' :: cs) :=
  notDigitStart_cons (by decide) cs

theorem notDigitStart_rbrace (cs : List Char) : notDigitStart ('}' :: cs) :=
  notDigitStart_cons (by decide) cs

theorem intChars_head (n : Int) :
    ∃ c cs', intChars n = c :: cs' ∧ c ≠ ']' ∧ c ≠ '}' := by
  rw [intChars]
  split
  · exact ⟨'-', _, rfl, by decide, by decide⟩
  · cases h : natDigits n.toNat with
    | nil => exact absurd h (natDigits_ne_nil _)
    | cons d ds =>
      have hd : d.isDigit = true := by
        have := natDigits_all_digits n.toNat
        rw [h] at this
        exact this d (by simp)
      refine ⟨d, ds, rfl, ?_, ?_⟩
      · intro hc; rw [hc] at hd; exact absurd hd (by decide)
      · intro hc; rw [hc] at hd; exact absurd hd (by decide)

theorem dumpVal_head (v : Json) :
    ∃ c cs', Json.dumpVal v = c :: cs' ∧ c ≠ ']' ∧ c ≠ '}' := by
  cases v with
  | null => exact ⟨'n', ['u', 'l', 'l'], by simp [Json.dumpVal], by decide, by decide⟩
  | bool b =>
    cases b with
    | true => exact ⟨'t', ['r', 'u', 'e'], by simp [Json.dumpVal], by decide, by decide⟩
    | false => exact ⟨'f', ['a', 'l', 's', 'e'], by simp [Json.dumpVal], by decide, by decide⟩
  | num n =>
    obtain ⟨c, cs', hc, h1, h2⟩ := intChars_head n
    exact ⟨c, cs', by simp [Json.dumpVal, hc], h1, h2⟩
  | str s =>
    exact ⟨'"', escChars s.data ++ ['"'], by simp [Json.dumpVal, strChars], by decide, by decide⟩
  | arr a =>
    exact ⟨'[', JsonArr.dumpItems a ++ [']'], by simp [Json.dumpVal], by decide, by decide⟩
  | obj o =>
    exact ⟨'{', JsonObj.dumpItems o ++ ['}'], by simp [Json.dumpVal], by decide, by decide⟩

theorem dumpItems_arrCons_head (hd : Json) (tl : JsonArr) :
    ∃ c cs', JsonArr.dumpItems (.cons hd tl) = c :: cs' ∧ c ≠ ']' ∧ c ≠ '}' := by
  obtain ⟨c, cs', hc, h1, h2⟩ := dumpVal_head hd
  cases tl with
  | nil => exact ⟨c, cs', by simp [JsonArr.dumpItems, hc], h1, h2⟩
  | cons v2 tl2 =>
    exact ⟨c, cs' ++ ',' :: JsonArr.dumpItems (.cons v2 tl2),
      by simp [JsonArr.dumpItems, hc], h1, h2⟩

theorem parseArrBody_nonbracket {f : Nat} {c : Char} (hc : c ≠ ']') (cs : List Char) :
    parseArrBody (f + 1) (c :: cs) = parseArrItems f (c :: cs) := by
  conv_lhs => unfold parseArrBody
  simp [hc]

theorem parseObjBody_nonbrace {f : Nat} {c : Char} (hc : c ≠ '}') (cs : List Char) :
    parseObjBody (f + 1) (c :: cs) = parseObjItems f .nil (c :: cs) := by
  conv_lhs => unfold parseObjBody
  simp [hc]

theorem hasKey_append (a b : JsonObj) (k : String) :
    (a.append b).hasKey k = (a.hasKey k || b.hasKey k) := by
  cases a with
  | nil => simp [JsonObj.append, JsonObj.hasKey]
  | cons k2 v2 tl =>
    simp [JsonObj.append, JsonObj.hasKey, hasKey_append tl b k]
    by_cases h : k2 = k <;> simp [h, Bool.or_assoc]

theorem setKey_not_has {o : JsonObj} {k : String} (h : o.hasKey k = false) (v : Json) :
    o.setKey k v = o.append (.cons k v .nil) := by
  cases o with
  | nil => simp [JsonObj.setKey, JsonObj.append]
  | cons k2 v2 tl =>
    simp [JsonObj.hasKey] at h
    simp [JsonObj.setKey, JsonObj.append, h.1, setKey_not_has h.2 v]

theorem append_single_assoc (a : JsonObj) (k : String) (v : Json) (b : JsonObj) :
    (a.append (.cons k v .nil)).append b = a.append (.cons k v b) := by
  cases a with
  | nil => simp [JsonObj.append]
  | cons k2 v2 tl => simp [JsonObj.append, append_single_assoc tl k v b]

theorem parseVal_null (f : Nat) (cs : List Char) :
    parseVal (f + 1) ('n' :: 'u' :: 'l' :: 'l' :: cs) = some (.null, cs) := by
  conv_lhs => unfold parseVal
  simp

theorem parseVal_true (f : Nat) (cs : List Char) :
    parseVal (f + 1) ('t' :: 'r' :: 'u' :: 'e' :: cs) = some (.bool true, cs) := by
  conv_lhs => unfold parseVal
  simp

theorem parseVal_false (f : Nat) (cs : List Char) :
    parseVal (f + 1) ('f' :: 'a' :: 'l' :: 's' :: 'e' :: cs) = some (.bool false, cs) := by
  conv_lhs => unfold parseVal
  simp

theorem parseVal_quote (f : Nat) (cs : List Char) :
    parseVal (f + 1) ('"' :: cs)
      = (parseStrBody cs).map (fun p => (.str (String.mk p.1), p.2)) := by
  conv_lhs => unfold parseVal
  simp

theorem parseVal_lbracket (f : Nat) (cs : List Char) :
    parseVal (f + 1) ('[' :: cs)
      = (parseArrBody f cs).map (fun p => (.arr p.1, p.2)) := by
  conv_lhs => unfold parseVal
  simp

theorem parseVal_lbrace (f : Nat) (cs : List Char) :
    parseVal (f + 1) ('{' :: cs)
      = (parseObjBody f cs).map (fun p => (.obj p.1, p.2)) := by
  conv_lhs => unfold parseVal
  simp

theorem parseArrBody_rbracket (f : Nat) (cs : List Char) :
    parseArrBody (f + 1) (']' :: cs) = some (.nil, cs) := by
  conv_lhs => unfold parseArrBody
  simp

theorem parseObjBody_rbrace (f : Nat) (cs : List Char) :
    parseObjBody (f + 1) ('}' :: cs) = some (.nil, cs) := by
  conv_lhs => unfold parseObjBody
  simp

theorem parseArrItems_eq (f : Nat) (cs : List Char) :
    parseArrItems (f + 1) cs
      = (parseVal f cs).bind (fun p =>
          match p.2 with
          | ']' :: r2 => some (.cons p.1 .nil, r2)
          | ',' :: r2 => (parseArrItems f r2).map (fun q => (.cons p.1 q.1, q.2))
          | _ => none) := by
  conv_lhs => unfold parseArrItems

theorem parseObjItems_quote (f : Nat) (acc : JsonObj) (cs : List Char) :
    parseObjItems (f + 1) acc ('"' :: cs)
      = (parseStrBody cs).bind (fun kp =>
          match kp.2 with
          | ':' :: r2 =>
            (parseVal f r2).bind (fun vp =>
              match vp.2 with
              | '}' :: r4 => some (acc.setKey (String.mk kp.1) vp.1, r4)
              | ',' :: r4 => parseObjItems f (acc.setKey (String.mk kp.1) vp.1) r4
              | _ => none)
          | _ => none) := by
  conv_lhs => unfold parseObjItems
  simp

theorem string_mk_data (s : String) : String.mk s.data = s := by
  cases s
  rfl

theorem dumpItems_objCons_head (k : String) (v : Json) (tl : JsonObj) :
    ∃ cs', JsonObj.dumpItems (.cons k v tl) = '"' :: cs' := by
  cases tl with
  | nil =>
    exact ⟨escChars k.data ++ ['"'] ++ ':' :: Json.dumpVal v,
      by simp [JsonObj.dumpItems, strChars]⟩
  | cons k2 v2 tl2 =>
    exact ⟨escChars k.data ++ ['"'] ++ ':' :: (Json.dumpVal v ++
        ',' :: JsonObj.dumpItems (.cons k2 v2 tl2)),
      by simp [JsonObj.dumpItems, strChars]⟩

mutual

theorem parse_dump_val (v : Json) : ∀ f rest, Json.jsize v ≤ f → Json.wfB v = true →
    notDigitStart rest → parseVal f (Json.dumpVal v ++ rest) = some (v, rest) := by
  cases v with
  | null =>
    intro f rest hsz _ _
    simp only [Json.jsize] at hsz
    obtain ⟨f', rfl⟩ : ∃ f', f = f' + 1 := ⟨f - 1, by omega⟩
    simp only [Json.dumpVal, List.cons_append, List.nil_append]
    exact parseVal_null f' rest
  | bool b =>
    intro f rest hsz _ _
    simp only [Json.jsize] at hsz
    obtain ⟨f', rfl⟩ : ∃ f', f = f' + 1 := ⟨f - 1, by omega⟩
    cases b with
    | true =>
      simp only [Json.dumpVal, List.cons_append, List.nil_append]
      exact parseVal_true f' rest
    | false =>
      simp only [Json.dumpVal, List.cons_append, List.nil_append]
      exact parseVal_false f' rest
  | num n =>
    intro f rest hsz _ hrest
    simp only [Json.jsize] at hsz
    simp only [Json.dumpVal]
    exact parseVal_intChars n f rest (by omega) hrest
  | str s =>
    intro f rest hsz _ _
    simp only [Json.jsize] at hsz
    obtain ⟨f', rfl⟩ : ∃ f', f = f' + 1 := ⟨f - 1, by omega⟩
    simp only [Json.dumpVal, strChars, List.cons_append, List.append_assoc,
      List.singleton_append]
    rw [parseVal_quote, parseStrBody_escChars]
    simp [string_mk_data]
  | arr a =>
    intro f rest hsz hwf hrest
    simp only [Json.jsize] at hsz
    simp only [Json.wfB] at hwf
    obtain ⟨f', rfl⟩ : ∃ f', f = f' + 1 := ⟨f - 1, by omega⟩
    simp only [Json.dumpVal, List.cons_append, List.append_assoc, List.singleton_append,
      List.nil_append]
    rw [parseVal_lbracket]
    cases a with
    | nil =>
      obtain ⟨f2, rfl⟩ : ∃ f2, f' = f2 + 1 := ⟨f' - 1, by simp [JsonArr.jsizeArr] at hsz; omega⟩
      simp only [JsonArr.dumpItems, List.nil_append]
      rw [parseArrBody_rbracket]
      rfl
    | cons hd tl =>
      obtain ⟨f2, rfl⟩ : ∃ f2, f' = f2 + 1 := ⟨f' - 1, by omega⟩
      obtain ⟨c, cs', hc, hcb, _⟩ := dumpItems_arrCons_head hd tl
      rw [hc, List.cons_append, parseArrBody_nonbracket hcb, ← List.cons_append, ← hc]
      rw [parse_dump_arrItems (JsonArr.cons hd tl) f2 rest (by simp)
        (by simp only [JsonArr.jsizeArr] at hsz ⊢; omega) hwf hrest]
      rfl
  | obj o =>
    intro f rest hsz hwf hrest
    simp only [Json.jsize] at hsz
    simp only [Json.wfB] at hwf
    obtain ⟨f', rfl⟩ : ∃ f', f = f' + 1 := ⟨f - 1, by omega⟩
    simp only [Json.dumpVal, List.cons_append, List.append_assoc, List.singleton_append,
      List.nil_append]
    rw [parseVal_lbrace]
    cases o with
    | nil =>
      obtain ⟨f2, rfl⟩ : ∃ f2, f' = f2 + 1 := ⟨f' - 1, by simp [JsonObj.jsizeObj] at hsz; omega⟩
      simp only [JsonObj.dumpItems, List.nil_append]
      rw [parseObjBody_rbrace]
      rfl
    | cons k v tl =>
      obtain ⟨f2, rfl⟩ : ∃ f2, f' = f2 + 1 := ⟨f' - 1, by omega⟩
      obtain ⟨cs', hc⟩ := dumpItems_objCons_head k v tl
      rw [hc, List.cons_append, parseObjBody_nonbrace (by decide), ← List.cons_append, ← hc]
      rw [parse_dump_objItems (JsonObj.cons k v tl) f2 .nil rest (by simp)
        (by simp only [JsonObj.jsizeObj] at hsz ⊢; omega) hwf
        (fun _ _ => rfl) hrest]
      rfl

theorem parse_dump_arrItems (a : JsonArr) : ∀ f rest, a ≠ .nil → JsonArr.jsizeArr a ≤ f →
    JsonArr.wfB a = true → notDigitStart rest →
    parseArrItems f (JsonArr.dumpItems a ++ ']' :: rest) = some (a, rest) := by
  cases a with
  | nil =>
    intro f rest hne _ _ _
    exact absurd rfl hne
  | cons hd tl =>
    intro f rest _ hsz hwf hrest
    simp only [JsonArr.jsizeArr] at hsz
    simp only [JsonArr.wfB, Bool.and_eq_true] at hwf
    obtain ⟨f', rfl⟩ : ∃ f', f = f' + 1 := ⟨f - 1, by omega⟩
    rw [parseArrItems_eq]
    cases tl with
    | nil =>
      simp only [JsonArr.dumpItems]
      rw [parse_dump_val hd f' (']' :: rest) (by omega) hwf.1 (notDigitStart_rbracket rest)]
      rfl
    | cons v2 tl2 =>
      simp only [JsonArr.dumpItems, List.append_assoc, List.cons_append]
      rw [parse_dump_val hd f' (',' :: (JsonArr.dumpItems (.cons v2 tl2) ++ ']' :: rest))
        (by omega) hwf.1 (notDigitStart_comma _)]
      simp only [Option.some_bind]
      rw [parse_dump_arrItems (JsonArr.cons v2 tl2) f' rest (by simp)
        (by simp only [JsonArr.jsizeArr] at hsz ⊢; omega) hwf.2 hrest]
      rfl

theorem parse_dump_objItems (o : JsonObj) : ∀ f acc rest, o ≠ .nil →
    JsonObj.jsizeObj o ≤ f → JsonObj.wfB o = true →
    (∀ k2, JsonObj.hasKey o k2 = true → JsonObj.hasKey acc k2 = false) →
    notDigitStart rest →
    parseObjItems f acc (JsonObj.dumpItems o ++ '}' :: rest)
      = some (acc.append o, rest) := by
  cases o with
  | nil =>
    intro f acc rest hne _ _ _ _
    exact absurd rfl hne
  | cons k v tl =>
    intro f acc rest _ hsz hwf hacc hrest
    simp only [JsonObj.jsizeObj] at hsz
    simp only [JsonObj.wfB, Bool.and_eq_true, Bool.not_eq_true'] at hwf
    obtain ⟨f', rfl⟩ : ∃ f', f = f' + 1 := ⟨f - 1, by omega⟩
    have hkacc : JsonObj.hasKey acc k = false := by
      refine hacc k ?_
      simp [JsonObj.hasKey]
    cases tl with
    | nil =>
      simp only [JsonObj.dumpItems, strChars, List.cons_append, List.append_assoc,
        List.singleton_append]
      rw [parseObjItems_quote, parseStrBody_escChars]
      simp only [Option.some_bind, List.nil_append]
      rw [parse_dump_val v f' ('}' :: rest) (by omega) hwf.1.2 (notDigitStart_rbrace rest)]
      simp only [Option.some_bind]
      rw [string_mk_data, setKey_not_has hkacc]
    | cons k2 v2 tl2 =>
      simp only [JsonObj.dumpItems, strChars, List.cons_append, List.append_assoc,
        List.singleton_append]
      rw [parseObjItems_quote, parseStrBody_escChars]
      simp only [Option.some_bind, List.nil_append]
      rw [parse_dump_val v f'
        (',' :: (JsonObj.dumpItems (.cons k2 v2 tl2) ++ '}' :: rest))
        (by omega) hwf.1.2 (notDigitStart_comma _)]
      simp only [Option.some_bind]
      rw [string_mk_data, setKey_not_has hkacc]
      have hacc2 : ∀ k3, JsonObj.hasKey (.cons k2 v2 tl2) k3 = true →
          JsonObj.hasKey (acc.append (.cons k v .nil)) k3 = false := by
        intro k3 h3
        rw [hasKey_append]
        have h4 : JsonObj.hasKey acc k3 = false := by
          refine hacc k3 ?_
          simp only [JsonObj.hasKey, Bool.or_eq_true, decide_eq_true_eq] at h3 ⊢
          exact Or.inr h3
        have h5 : JsonObj.hasKey (JsonObj.cons k v .nil) k3 = false := by
          simp [JsonObj.hasKey]
          intro hkk
          subst hkk
          rw [h3] at hwf
          exact absurd hwf.1.1 (by simp)
        rw [h4, h5]
        rfl
      rw [parse_dump_objItems (JsonObj.cons k2 v2 tl2) f'
        (acc.append (.cons k v .nil)) rest (by simp)
        (by simp only [JsonObj.jsizeObj] at hsz ⊢; omega) hwf.2 hacc2 hrest]
      rw [append_single_assoc]

end

mutual

theorem jsize_le (v : Json) : Json.jsize v ≤ 3 * (Json.dumpVal v).length := by
  cases v with
  | null => simp [Json.jsize, Json.dumpVal]
  | bool b => cases b <;> simp [Json.jsize, Json.dumpVal]
  | num n =>
    obtain ⟨c, cs2, hc, -, -⟩ := intChars_head n
    simp [Json.jsize, Json.dumpVal, hc]
    omega
  | str s =>
    simp [Json.jsize, Json.dumpVal, strChars]
    omega
  | arr a =>
    have h := jsizeArr_le a
    simp only [Json.jsize, Json.dumpVal, List.length_cons, List.length_append,
      List.length_singleton]
    omega
  | obj o =>
    have h := jsizeObj_le o
    simp only [Json.jsize, Json.dumpVal, List.length_cons, List.length_append,
      List.length_singleton]
    omega

theorem jsizeArr_le (a : JsonArr) :
    JsonArr.jsizeArr a ≤ 3 * (JsonArr.dumpItems a).length + 1 := by
  cases a with
  | nil => simp [JsonArr.jsizeArr, JsonArr.dumpItems]
  | cons v tl =>
    cases tl with
    | nil =>
      have h := jsize_le v
      simp only [JsonArr.jsizeArr, JsonArr.dumpItems]
      omega
    | cons v2 tl2 =>
      have h1 := jsize_le v
      have h2 := jsizeArr_le (JsonArr.cons v2 tl2)
      simp only [JsonArr.jsizeArr, JsonArr.dumpItems, List.length_append,
        List.length_cons]
      simp only [JsonArr.jsizeArr] at h2
      omega

theorem jsizeObj_le (o : JsonObj) :
    JsonObj.jsizeObj o ≤ 3 * (JsonObj.dumpItems o).length + 1 := by
  cases o with
  | nil => simp [JsonObj.jsizeObj, JsonObj.dumpItems]
  | cons k v tl =>
    cases tl with
    | nil =>
      have h := jsize_le v
      simp only [JsonObj.jsizeObj, JsonObj.dumpItems, List.length_append,
        List.length_cons, strChars]
      omega
    | cons k2 v2 tl2 =>
      have h1 := jsize_le v
      have h2 := jsizeObj_le (JsonObj.cons k2 v2 tl2)
      simp only [JsonObj.jsizeObj, JsonObj.dumpItems, List.length_append,
        List.length_cons, strChars]
      simp only [JsonObj.jsizeObj] at h2
      omega

end

theorem parseObjTop_dumpVal (o : JsonObj) (hwf : Json.wfB (.obj o) = true) :
    Json.parseObjTop (Json.dumpVal (.obj o)) = some o := by
  unfold Json.parseObjTop Json.parseTop
  have hb : Json.jsize (.obj o) ≤ 3 * (Json.dumpVal (.obj o)).length + 3 :=
    le_trans (jsize_le _) (by omega)
  have h := parse_dump_val (.obj o) (3 * (Json.dumpVal (.obj o)).length + 3) []
    hb hwf notDigitStart_nil
  rw [List.append_nil] at h
  rw [h]

/-- Python `str.find` helper: index of the first occurrence of `c` in the
list, where the head of the list is at index `i`; `-1` when absent. -/
def findAux : List Char → Char → Int → Int
  | [], _, _ => -1
  | x :: xs, c, i => if x = c then i else findAux xs c (i + 1)

/-- Python `message.find(c, start)`: index of the first occurrence of `c` at
position `start` or later, or `-1`.  (The code only ever passes a
non-negative `start`.) -/
def pyFind (cs : List Char) (c : Char) (start : Nat) : Int :=
  findAux (cs.drop start) c start

/-- Python `message[a:b]` for `0 ≤ a ≤ b` (the only shapes the code reaches
after its format checks). -/
def pySlice (cs : List Char) (a b : Int) : List Char :=
  (cs.take b.toNat).drop a.toNat

/-- Python `message[a:]` for `0 ≤ a`. -/
def pyDrop (cs : List Char) (a : Int) : List Char :=
  cs.drop a.toNat

/-- Python `x or default` for an optional dict argument.  (`None or \x7b\x7d`
and `\x7b\x7d or \x7b\x7d` both give the empty dict, so collapsing on `none`
is exact.) -/
def orEmptyObj : Option JsonObj → JsonObj
  | none => .nil
  | some o => o

/-- Python `logging.CRITICAL`. -/
def logCRITICAL : Nat := 50

/-- Python `logging.ERROR`. -/
def logERROR : Nat := 40

/-- Python `logging.WARNING`, the `BaseError.__init__` default severity. -/
def logWARNING : Nat := 30

/-- State built by `BaseError.__init__` (`smart_rpc/errors.py` lines 11-23):
the stored `details` dict wraps the given details under the two keys
`error_code` and `details`. -/
structure BaseErrorPy where
  error_code : String
  log_level : Nat
  details : JsonObj
  deriving DecidableEq

/-- `BaseError.__init__(error_code=…, details=…, log_level=…)`. -/
def BaseErrorPy.init (error_code : String) (details : Option JsonObj)
    (log_level : Nat) : BaseErrorPy :=
  { error_code := error_code
    log_level := log_level
    details := .cons "error_code" (.str error_code)
      (.cons "details" (.obj (orEmptyObj details)) .nil) }

/-- `ValidationError(details)`: an `ExternalError` with code `ValidationError`
and the default `WARNING` severity. -/
def ValidationError (details : JsonObj) : BaseErrorPy :=
  BaseErrorPy.init "ValidationError" (some details) logWARNING

/-- Details dict used by the invalid-message-format failures of
`Request.load` / `Response.load`. -/
def invalidMessageFormatDetails : JsonObj :=
  .cons "invalid_message_format"
    (.str "please check smart_rpc request/response format documentation") .nil

/-- Details dict of the missing-trace-id failure of `Response.load`. -/
def traceIdMustBeSetDetails : JsonObj :=
  .cons "trace_id" (.str "must be set") .nil

/-- `ValidationError.from_base_exception(exc)`: wraps the exception class
name and message (`str(exc)`, carried opaquely here). -/
def ValidationError.from_base_exception (excName excMessage : String) : BaseErrorPy :=
  ValidationError
    (.cons "exception" (.str excName)
      (.cons "exception_message" (.str excMessage) .nil))

/-- `UnknownMethodError(method_name)`. -/
def UnknownMethodError (method_name : String) : BaseErrorPy :=
  BaseErrorPy.init "UnknownMethod" (some (.cons "method" (.str method_name) .nil))
    logWARNING

/-- `MethodInternalError(details)`. -/
def MethodInternalError (details : JsonObj) : BaseErrorPy :=
  BaseErrorPy.init "MethodInternal" (some details) logWARNING

/-- `MethodInternalError.from_base_exception(exc)`. -/
def MethodInternalError.from_base_exception (excName excMessage : String) : BaseErrorPy :=
  MethodInternalError
    (.cons "exception" (.str excName)
      (.cons "exception_message" (.str excMessage) .nil))

/-- `AnnotationValidationError(details)`: a `FatalError` (severity
`CRITICAL`) with code `AnnotationValidation`. -/
def AnnotationValidationError (details : JsonObj) : BaseErrorPy :=
  BaseErrorPy.init "AnnotationValidation" (some details) logCRITICAL

/-- `AnnotationCaseError(field, upper=…)`. -/
def AnnotationCaseError (field : String) (upper : Bool) : BaseErrorPy :=
  AnnotationValidationError
    (.cons field
      (.str (if upper then "must be in camelCase or UpperCase" else "must be in lower_case"))
      .nil)

/-- `AnnotationNoMethodError()`. -/
def AnnotationNoMethodError : BaseErrorPy :=
  BaseErrorPy.init "AnnotationNoMethod"
    (some (.cons "no_method" (.str "at least one must be declared in annotation file") .nil))
    logCRITICAL

/-- `AnnotationUnknownFieldTypeError(field_type)`. -/
def AnnotationUnknownFieldTypeError (field_type : String) : BaseErrorPy :=
  BaseErrorPy.init "AnnotationUnknownFieldType"
    (some (.cons "unknown_field_type" (.str field_type) .nil))
    logCRITICAL

/-- Modelled from the spec: `ZERO_TRACE_ID` lives in `smart_rpc/constants.py`,
which is absent from the sources; the spec calls it "a reserved all-zero
value" used as the trace id of error responses with no request context. -/
def ZERO_TRACE_ID : String := "00000000-0000-0000-0000-000000000000"

/-- A `Request` object (`smart_rpc/messages.py`).  `trace_id` is `Json`-typed
because the code stores whatever JSON value the wire headers carried.
Modelled from the spec: `BasePayloadSchema`/`BaseHeadersSchema` live in
`smart_rpc/schema.py`, which is absent from the sources; per spec section 3
payload and headers are open `mapping[string, JSON value]`s, so
`model_validate`/`model_dump` act as the identity on JSON objects here. -/
structure Request where
  method_name : String
  trace_id : Json
  payload : JsonObj
  headers : JsonObj
  deriving DecidableEq

/-- `Request.__init__`: defaults the payload/headers, replaces a falsy
`trace_id` by a fresh `uuid4()` (passed in as `fresh`), and writes the trace
id into the headers dict (`headers['trace_id'] = self.trace_id`). -/
def Request.init (method_name : String) (trace_id : Option Json)
    (payload headers : Option JsonObj) (fresh : String) : Request :=
  let payload := orEmptyObj payload
  let headers := orEmptyObj headers
  let tid : Json :=
    match trace_id with
    | some t => if t.truthy then t else Json.str fresh
    | none => Json.str fresh
  { method_name := method_name
    trace_id := tid
    payload := payload
    headers := headers.setKey "trace_id" tid }

/-- `Request.dump`: method name bytes, payload JSON, headers JSON, nothing in
between. -/
def Request.dump (r : Request) : List Char :=
  r.method_name.data ++ Json.dumpVal (.obj r.payload) ++ Json.dumpVal (.obj r.headers)

/-- `Request.load` (`smart_rpc/messages.py` lines 55-88).  All failures it
raises are `ValidationError`s: the invalid-message-format check, and the
wrapped `orjson.JSONDecodeError` (whose message text the embedding carries as
an empty string). -/
def Request.load (message : List Char) (fresh : String) : Except BaseErrorPy Request :=
  let payload_start_at := pyFind message '{' 0
  let headers_start_at := pyFind message '{' (payload_start_at + 1).toNat
  if payload_start_at = -1 ∨ payload_start_at = 0
      ∨ headers_start_at = -1 ∨ headers_start_at = 0
      ∨ payload_start_at ≥ headers_start_at then
    .error (ValidationError invalidMessageFormatDetails)
  else
    match Json.parseObjTop (pySlice message payload_start_at headers_start_at),
        Json.parseObjTop (pyDrop message headers_start_at) with
    | some payload, some headers =>
      .ok (Request.init (String.mk (pySlice message 0 payload_start_at))
        (headers.get "trace_id") (some payload) (some headers) fresh)
    | _, _ => .error (ValidationError.from_base_exception "JSONDecodeError" "")

/-- A `Response` object.  Unlike `Request.__init__`, `Response.__init__`
stores the headers dict as given: it never inserts `trace_id`. -/
structure Response where
  method_name : String
  trace_id : Json
  success : Bool
  payload : JsonObj
  headers : JsonObj
  deriving DecidableEq

/-- `Response.__init__` (`smart_rpc/messages.py` lines 133-153). -/
def Response.init (method_name : String) (trace_id : Json) (success : Bool)
    (payload headers : Option JsonObj) : Response :=
  { method_name := method_name
    trace_id := trace_id
    success := success
    payload := orEmptyObj payload
    headers := orEmptyObj headers }

/-- `Response.dump`: method name, `:`, the `ok`/`err` token, payload JSON,
headers JSON. -/
def Response.dump (r : Response) : List Char :=
  r.method_name.data ++ ':' :: (if r.success then ['o', 'k'] else ['e', 'r', 'r'])
    ++ Json.dumpVal (.obj r.payload) ++ Json.dumpVal (.obj r.headers)

/-- Failures of `Response.load`: the raised `ValidationError`s, or a raw
`orjson.JSONDecodeError` (lines 178-179 sit outside any `try`, so a parse
failure propagates unwrapped). -/
inductive RespLoadError where
  | validation (e : BaseErrorPy)
  | jsonDecode
  deriving DecidableEq

/-- `Response.load` (`smart_rpc/messages.py` lines 155-194). -/
def Response.load (message : List Char) : Except RespLoadError Response :=
  let success_start_at := pyFind message ':' 0
  let payload_start_at := pyFind message '{' (success_start_at + 1).toNat
  let headers_start_at := pyFind message '{' (payload_start_at + 1).toNat
  if payload_start_at = -1 ∨ payload_start_at = 0
      ∨ success_start_at = -1 ∨ success_start_at = 0
      ∨ headers_start_at = -1 ∨ headers_start_at = 0
      ∨ success_start_at ≥ headers_start_at
      ∨ payload_start_at ≥ headers_start_at then
    .error (.validation (ValidationError invalidMessageFormatDetails))
  else
    match Json.parseObjTop (pySlice message payload_start_at headers_start_at),
        Json.parseObjTop (pyDrop message headers_start_at) with
    | some payload, some headers =>
      match headers.get "trace_id" with
      | some tid =>
        if tid.truthy then
          .ok (Response.init (String.mk (pySlice message 0 success_start_at)) tid
            (pySlice message (success_start_at + 1) payload_start_at == ['o', 'k'])
            (some payload) (some headers))
        else .error (.validation (ValidationError traceIdMustBeSetDetails))
      | none => .error (.validation (ValidationError traceIdMustBeSetDetails))
    | _, _ => .error .jsonDecode

/-- `response_from_error` (`smart_rpc/messages.py` lines 213-233). -/
def response_from_error (error : BaseErrorPy) (request : Option Request) : Response :=
  Response.init
    (match request with
      | some r => r.method_name
      | none =>
        if error.log_level = logCRITICAL ∨ error.log_level = logERROR then "__error"
        else "__warning")
    (match request with
      | some r => r.trace_id
      | none => .str ZERO_TRACE_ID)
    false
    (some (.cons "error_code" (.str error.error_code)
      (.cons "details" (.obj error.details) .nil)))
    none

/-- First-match lookup in an insertion-ordered dict (`dict.get`). -/
def lookupStr {α : Type} : List (String × α) → String → Option α
  | [], _ => none
  | (k, v) :: tl, key => if k = key then some v else lookupStr tl key

/-- Opaque connection context handed to handlers (`UserIface`). -/
structure UserIface where
  address : String

/-- Outcome of awaiting a handler: a `Response`, or a raised exception
(carried as its class name and message, which is all the dispatcher
consumes). -/
inductive HandlerOutcome where
  | ok (response : Response)
  | exc (className message : String)

/-- A registered handler (`HandlerMethod`). -/
def HandlerMethod := Request → UserIface → HandlerOutcome

/-- The dispatcher registry (`MessageHandler.methods`), an insertion-ordered
mapping from method name to handler. -/
structure MessageHandler where
  methods : List (String × HandlerMethod)

/-- `MessageHandler.handle` (`smart_rpc/message_hander.py` lines 66-86).
`except ValidationError` covers every failure `Request.load` raises (both of
its raise-sites construct `ValidationError`s).  The guard
`not method or request.method_name not in self.methods` is equivalent to the
lookup failing, since handler functions are always truthy.  Note both error
paths call `response_from_error(error)` without the request argument. -/
def MessageHandler.handle (mh : MessageHandler) (message : List Char)
    (user : UserIface) (fresh : String) : Response :=
  match Request.load message fresh with
  | .error e => response_from_error e none
  | .ok request =>
    match lookupStr mh.methods request.method_name with
    | none => response_from_error (UnknownMethodError request.method_name) none
    | some method =>
      match method request user with
      | .ok resp => resp
      | .exc cls msg =>
        response_from_error (MethodInternalError.from_base_exception cls msg) none

/-- `FIELD_TYPE_PRIMITIVES` (`smart_rpc/rpc_annotation.py` lines 20-29). -/
def FIELD_TYPE_PRIMITIVES : List String :=
  ["int", "float", "boolean", "string", "date", "datetime", "uuid", "null"]

mutual

/-- A raw field-type spec as it appears in an annotation schema: a string
(primitive tag or reference) or a (possibly nested) sequence. -/
inductive FieldSpec where
  | str (s : String)
  | list (xs : FieldSpecList)
  deriving DecidableEq

/-- A sequence of raw field-type specs. -/
inductive FieldSpecList where
  | nil : FieldSpecList
  | cons (hd : FieldSpec) (tl : FieldSpecList) : FieldSpecList
  deriving DecidableEq

end

mutual

/-- A resolved field type as `_convert_field_value` produces it: a Python
type object for a primitive tag (`None` for `null`), a compiled `StrEnum`
class (identified by its name and members), the compiled object dict (a
value snapshot of `self.objects[name]`), or a Python list of resolved
elements. -/
inductive FieldTypeR where
  | prim (tag : String)
  | enumRef (name : String) (members : List (String × String))
  | objRef (fields : FieldsR)
  | list (elems : FieldTypeRList)
  deriving DecidableEq

/-- An insertion-ordered dict from field name to resolved field type. -/
inductive FieldsR where
  | nil : FieldsR
  | cons (key : String) (val : FieldTypeR) (tl : FieldsR) : FieldsR
  deriving DecidableEq

/-- A Python list of resolved field types. -/
inductive FieldTypeRList where
  | nil : FieldTypeRList
  | cons (hd : FieldTypeR) (tl : FieldTypeRList) : FieldTypeRList
  deriving DecidableEq

end

/-- Python dict assignment `d[k] = v` on a resolved field dict. -/
def FieldsR.setKey : FieldsR → String → FieldTypeR → FieldsR
  | .nil, key, v => .cons key v .nil
  | .cons k w tl, key, v =>
    if k = key then .cons k v tl else .cons k w (setKey tl key v)

/-- Python dict assignment `d[k] = v` for association lists with values of
any type. -/
def setStr {α : Type} : List (String × α) → String → α → List (String × α)
  | [], key, v => [(key, v)]
  | (k, w) :: tl, key, v =>
    if k = key then (k, v) :: tl else (k, w) :: setStr tl key v

/-- Compiled state of `RPCAnnotationDTO` (its `enums`, `objects` and
`methods` dicts; each method maps to its request and response field dicts). -/
structure RPCAnnotationDTO where
  enums : List (String × List (String × String))
  objects : List (String × FieldsR)
  methods : List (String × (FieldsR × FieldsR))
  deriving DecidableEq

/-- Modelled from the spec: `check_camel_case` is imported from
`smart_rpc.utils` but absent from the sources.  Spec section 4.2: "enum names
and object names must be UpperCamelCase"; modelled as: non-empty, first
character an ASCII uppercase letter, remaining characters ASCII letters or
digits. -/
def check_camel_case (s : String) : Bool :=
  match s.data with
  | [] => false
  | c :: rest => c.isUpper && rest.all (fun x => x.isAlpha || x.isDigit)

/-- Python `str.islower()` (ASCII fragment): at least one cased character and
no uppercase character. -/
def pyIsLower (s : String) : Bool :=
  s.data.any (fun c => c.isLower) && s.data.all (fun c => !c.isUpper)

/-- `field_type_to_python_type`: the primitive tag's Python type, or an
`AnnotationUnknownFieldTypeError`. -/
def field_type_to_python_type (field_type : String) : Except BaseErrorPy FieldTypeR :=
  if field_type ∈ FIELD_TYPE_PRIMITIVES then .ok (.prim field_type)
  else .error (AnnotationUnknownFieldTypeError field_type)

mutual

/-- `RPCAnnotationDTO._convert_field_value` (lines 108-131): sequences map
elementwise; strings resolve primitive tag first, then a previously compiled
enum, then a previously compiled object; anything else is an
`AnnotationValidationError` tagged `unknown_signature`. -/
def convert_field_value (dto : RPCAnnotationDTO) : FieldSpec → Except BaseErrorPy FieldTypeR
  | .list xs => (convert_field_list dto xs).map FieldTypeR.list
  | .str s =>
    if s ∈ FIELD_TYPE_PRIMITIVES then field_type_to_python_type s
    else
      match lookupStr dto.enums s with
      | some members => .ok (.enumRef s members)
      | none =>
        match lookupStr dto.objects s with
        | some fields => .ok (.objRef fields)
        | none =>
          .error (AnnotationValidationError (.cons "unknown_signature" (.str s) .nil))

/-- Elementwise resolution of a sequence spec (the list comprehension in
`_convert_field_value`); the first failure propagates. -/
def convert_field_list (dto : RPCAnnotationDTO) :
    FieldSpecList → Except BaseErrorPy FieldTypeRList
  | .nil => .ok .nil
  | .cons x tl =>
    (convert_field_value dto x).bind (fun r =>
      (convert_field_list dto tl).map (fun rs => FieldTypeRList.cons r rs))

end

/-- `RPCAnnotationDTO._make_enums` over the insertion-ordered entries:
case-check each name, then compile the `StrEnum` (carried as its member
list). -/
def make_enums_list :
    List (String × List (String × String)) →
      Except BaseErrorPy (List (String × List (String × String)))
  | [] => .ok []
  | (k, raw) :: tl =>
    if check_camel_case k then
      (make_enums_list tl).map (fun rest => (k, raw) :: rest)
    else .error (AnnotationCaseError ("enums." ++ k) true)

/-- `if not self.schema.enums: return` followed by the entry loop. -/
def make_enums (enums : Option (List (String × List (String × String)))) :
    Except BaseErrorPy (List (String × List (String × String))) :=
  match enums with
  | none => .ok []
  | some es => make_enums_list es

/-- The inner loop of `_make_objects` for one object: convert each field in
order, assigning into `self.objects[object_key]` (which was pre-seeded with
an empty dict, so earlier fields and the object itself are visible during
conversion). -/
def make_object_fields (dto : RPCAnnotationDTO) (objectKey : String) :
    List (String × FieldSpec) → Except BaseErrorPy RPCAnnotationDTO
  | [] => .ok dto
  | (fk, fv) :: ftl =>
    (convert_field_value dto fv).bind (fun r =>
      let cur := (lookupStr dto.objects objectKey).getD .nil
      make_object_fields
        { dto with objects := setStr dto.objects objectKey (cur.setKey fk r) }
        objectKey ftl)

/-- `RPCAnnotationDTO._make_objects` over the insertion-ordered entries. -/
def make_objects_list (dto : RPCAnnotationDTO) :
    List (String × List (String × FieldSpec)) → Except BaseErrorPy RPCAnnotationDTO
  | [] => .ok dto
  | (k, raw) :: tl =>
    if check_camel_case k then
      (make_object_fields { dto with objects := setStr dto.objects k .nil } k raw).bind
        (fun dto2 => make_objects_list dto2 tl)
    else .error (AnnotationCaseError ("objects." ++ k) true)

/-- `if not self.schema.objects: return` followed by the entry loop (an
absent and an empty mapping behave identically). -/
def make_objects (dto : RPCAnnotationDTO)
    (objects : Option (List (String × List (String × FieldSpec)))) :
    Except BaseErrorPy RPCAnnotationDTO :=
  match objects with
  | none => .ok dto
  | some os => make_objects_list dto os

/-- Field-dict compilation for one direction of a method (the
`current_object[key] = self._convert_field_value(value)` loop). -/
def convert_fields (dto : RPCAnnotationDTO) :
    List (String × FieldSpec) → Except BaseErrorPy FieldsR
  | [] => .ok .nil
  | (fk, fv) :: tl =>
    (convert_field_value dto fv).bind (fun r =>
      (convert_fields dto tl).map (fun rest => FieldsR.cons fk r rest))

/-- `RPCAnnotationDTO._make_methods` over the insertion-ordered entries:
lower-case check, presence of both `request` and `response`, then field
conversion for each direction. -/
def make_methods_list (dto : RPCAnnotationDTO) :
    List (String × List (String × List (String × FieldSpec))) →
      Except BaseErrorPy RPCAnnotationDTO
  | [] => .ok dto
  | (mk, raw) :: tl =>
    if pyIsLower mk then
      match lookupStr raw "request", lookupStr raw "response" with
      | some reqFields, some respFields =>
        (convert_fields dto reqFields).bind (fun reqR =>
          (convert_fields dto respFields).bind (fun respR =>
            make_methods_list
              { dto with methods := setStr dto.methods mk (reqR, respR) } tl))
      | _, _ =>
        .error (AnnotationValidationError
          (.cons "request_or_response_object"
            (.str ("not found in " ++ mk ++ " method")) .nil))
    else .error (AnnotationCaseError ("methods." ++ mk) false)

/-- `if not self.schema.methods: raise AnnotationNoMethodError` followed by
the entry loop (an empty mapping is falsy, hence also fatal). -/
def make_methods (dto : RPCAnnotationDTO)
    (methods : Option (List (String × List (String × List (String × FieldSpec))))) :
    Except BaseErrorPy RPCAnnotationDTO :=
  match methods with
  | none => .error AnnotationNoMethodError
  | some ms => if ms = [] then .error AnnotationNoMethodError else make_methods_list dto ms

/-- The raw `AnnotationSchema` (pydantic model with three optional dicts). -/
structure AnnotationSchema where
  enums : Option (List (String × List (String × String)))
  objects : Option (List (String × List (String × FieldSpec)))
  methods : Option (List (String × List (String × List (String × FieldSpec))))

/-- `RPCAnnotationDTO._make`: enums, then objects, then methods — one
top-to-bottom pass. -/
def RPCAnnotationDTO.make (schema : AnnotationSchema) : Except BaseErrorPy RPCAnnotationDTO :=
  (make_enums schema.enums).bind (fun enums =>
    (make_objects { enums := enums, objects := [], methods := [] } schema.objects).bind
      (fun dto1 => make_methods dto1 schema.methods))

theorem findAux_not_mem {a : List Char} {c : Char} (h : c ∉ a) (b : List Char) (i : Int) :
    findAux (a ++ b) c i = findAux b c (i + a.length) := by
  induction a generalizing i with
  | nil => simp [findAux]
  | cons x xs ih =>
    have hx : x ≠ c := fun hx => h (by simp [hx])
    have hxs : c ∉ xs := fun hm => h (by simp [hm])
    rw [List.cons_append]
    rw [show findAux (x :: (xs ++ b)) c i = findAux (xs ++ b) c (i + 1) from by
      simp [findAux, hx]]
    rw [ih hxs]
    congr 1
    simp only [List.length_cons]
    push_cast
    ring

theorem findAux_self (c : Char) (xs : List Char) (i : Int) :
    findAux (c :: xs) c i = i := by
  simp [findAux]

theorem findAux_neg_of_not_mem {b : List Char} {c : Char} (h : c ∉ b) (i : Int) :
    findAux b c i = -1 := by
  induction b generalizing i with
  | nil => simp [findAux]
  | cons x xs ih =>
    have hx : x ≠ c := by
      intro hx
      exact h (by simp [hx])
    have hxs : c ∉ xs := fun hm => h (by simp [hm])
    simp [findAux, hx, ih hxs]

theorem findAux_ge {b : List Char} {c : Char} {i r : Int} (h : findAux b c i = r)
    (hr : r ≠ -1) : i ≤ r := by
  induction b generalizing i with
  | nil =>
    simp [findAux] at h
    exact absurd h.symm hr
  | cons x xs ih =>
    simp only [findAux] at h
    split at h
    · omega
    · have := ih h
      omega

theorem findAux_mem_range {b : List Char} {c : Char} {i r : Int} (h : findAux b c i = r)
    (hr : r ≠ -1) : r < i + b.length := by
  induction b generalizing i with
  | nil =>
    simp [findAux] at h
    exact absurd h.symm hr
  | cons x xs ih =>
    simp only [findAux] at h
    split at h
    · simp only [List.length_cons]
      push_cast
      omega
    · have := ih h
      simp only [List.length_cons]
      push_cast
      push_cast at this
      omega

theorem findAux_decomp {b : List Char} {c : Char} {i r : Int} (h : findAux b c i = r)
    (hr : r ≠ -1) :
    ∃ pre suf, b = pre ++ c :: suf ∧ c ∉ pre ∧ r = i + pre.length := by
  induction b generalizing i with
  | nil =>
    simp [findAux] at h
    exact absurd h.symm hr
  | cons x xs ih =>
    simp only [findAux] at h
    split at h
    · next hx =>
      subst hx
      exact ⟨[], xs, by simp, by simp, by simp [← h]⟩
    · next hx =>
      obtain ⟨pre, suf, hb, hpre, hre⟩ := ih h
      refine ⟨x :: pre, suf, by simp [hb], ?_, ?_⟩
      · intro hm
        simp at hm
        rcases hm with hm | hm
        · exact hx hm.symm
        · exact hpre hm
      · simp only [List.length_cons]
        push_cast
        omega

theorem pyFind_zero (cs : List Char) (c : Char) : pyFind cs c 0 = findAux cs c 0 := by
  simp [pyFind]

theorem findAux_nonneg_of_mem {b : List Char} {c : Char} (h : c ∈ b) {i : Int}
    (hi : 0 ≤ i) : 0 ≤ findAux b c i := by
  induction b generalizing i with
  | nil => simp at h
  | cons x xs ih =>
    simp only [findAux]
    split
    · exact hi
    · next hx =>
      have hxs : c ∈ xs := by
        rcases List.mem_cons.mp h with hm | hm
        · exact absurd hm.symm hx
        · exact hm
      exact ih hxs (by omega)

theorem pyFind_neg_iff (cs : List Char) (c : Char) :
    pyFind cs c 0 = -1 ↔ c ∉ cs := by
  rw [pyFind_zero]
  constructor
  · intro h hm
    have := findAux_nonneg_of_mem hm (le_refl (0 : Int))
    omega
  · intro h
    exact findAux_neg_of_not_mem h 0

theorem get_setKey (o : JsonObj) (k : String) (v : Json) :
    (o.setKey k v).get k = some v := by
  cases o with
  | nil => simp [JsonObj.setKey, JsonObj.get]
  | cons k2 v2 tl =>
    by_cases h : k2 = k
    · simp [JsonObj.setKey, JsonObj.get, h]
    · simp [JsonObj.setKey, JsonObj.get, h, get_setKey tl k v]

theorem setKey_setKey (o : JsonObj) (k : String) (v : Json) :
    (o.setKey k v).setKey k v = o.setKey k v := by
  cases o with
  | nil => simp [JsonObj.setKey]
  | cons k2 v2 tl =>
    by_cases h : k2 = k
    · simp [JsonObj.setKey, h]
    · simp [JsonObj.setKey, h, setKey_setKey tl k v]

theorem hasKey_setKey (o : JsonObj) (k key : String) (v : Json) :
    (o.setKey k v).hasKey key = (o.hasKey key || decide (k = key)) := by
  cases o with
  | nil => simp [JsonObj.setKey, JsonObj.hasKey]
  | cons k2 v2 tl =>
    by_cases h : k2 = k
    · subst h
      simp [JsonObj.setKey, JsonObj.hasKey]
      by_cases h2 : k2 = key <;> simp [h2]
    · simp [JsonObj.setKey, h, JsonObj.hasKey, hasKey_setKey tl k key v]
      by_cases h2 : k2 = key <;> simp [h2, Bool.or_assoc]

theorem wfB_setKey {o : JsonObj} {v : Json} (ho : JsonObj.wfB o = true)
    (hv : Json.wfB v = true) (k : String) : JsonObj.wfB (o.setKey k v) = true := by
  cases o with
  | nil => simp [JsonObj.setKey, JsonObj.wfB, JsonObj.hasKey, hv]
  | cons k2 v2 tl =>
    simp only [JsonObj.wfB, Bool.and_eq_true, Bool.not_eq_true'] at ho
    by_cases h : k2 = k
    · subst h
      simp only [JsonObj.setKey, if_pos rfl, JsonObj.wfB, Bool.and_eq_true,
        Bool.not_eq_true']
      exact ⟨⟨ho.1.1, hv⟩, ho.2⟩
    · simp only [JsonObj.setKey, if_neg h, JsonObj.wfB, Bool.and_eq_true,
        Bool.not_eq_true']
      refine ⟨⟨?_, ho.1.2⟩, wfB_setKey ho.2 hv k⟩
      rw [hasKey_setKey]
      simp [ho.1.1]
      intro hk
      exact absurd hk.symm h

/-- C10: every error constructed through `BaseError.__init__` (which every
subclass constructor chains to) stores a details mapping with exactly the two
keys `error_code` and `details`, whose `error_code` entry equals the error's
`error_code` field; consequently an error Response's payload carries the code
twice — `payload['error_code']` and `payload['details']['error_code']` are
the same string — and the human-meaningful entries sit at
`payload['details']['details']`. -/
theorem c10_error_details_shape (error_code : String) (details : Option JsonObj)
    (log_level : Nat) (request : Option Request) :
    (BaseErrorPy.init error_code details log_level).details.keys
        = ["error_code", "details"]
    ∧ (BaseErrorPy.init error_code details log_level).details.get "error_code"
        = some (.str error_code)
    ∧ (BaseErrorPy.init error_code details log_level).details.get "details"
        = some (.obj (orEmptyObj details))
    ∧ (response_from_error (BaseErrorPy.init error_code details log_level)
        request).payload.get "error_code" = some (.str error_code)
    ∧ (response_from_error (BaseErrorPy.init error_code details log_level)
        request).payload.get "details"
        = some (.obj (.cons "error_code" (.str error_code)
            (.cons "details" (.obj (orEmptyObj details)) .nil))) := by
  refine ⟨rfl, ?_, ?_, ?_, ?_⟩ <;>
    simp [BaseErrorPy.init, response_from_error, Response.init, JsonObj.get,
      orEmptyObj]

/-- C7 counterexample: resolving the single-element sequence `['int']` gives
the one-element Python list `[int]`, not the element's own resolved shape
`int`, so the claim's singleton collapse does not hold on the code. -/
theorem c7_counterexample :
    convert_field_value ⟨[], [], []⟩ (.list (.cons (.str "int") .nil))
        = .ok (.list (.cons (.prim "int") .nil))
    ∧ convert_field_value ⟨[], [], []⟩ (.str "int") = .ok (.prim "int")
    ∧ FieldTypeR.list (.cons (.prim "int") .nil) ≠ FieldTypeR.prim "int" := by
  refine ⟨by decide, by decide, by decide⟩

/-- C7 (amended): field-type resolution maps a sequence spec elementwise into
a Python list — uniformly, with no singleton collapse and no separate Union
node (the resolved list itself is the union representation; a one-element
sequence resolves to a one-element list); a string spec resolves to the
matching primitive tag, else to a previously compiled enum, else to a
previously compiled object, in that order. -/
theorem c7_amended :
    (∀ (dto : RPCAnnotationDTO) (xs : FieldSpecList),
      convert_field_value dto (.list xs)
        = (convert_field_list dto xs).map FieldTypeR.list)
    ∧ (∀ (dto : RPCAnnotationDTO) (x : FieldSpec),
      convert_field_list dto (.cons x .nil)
        = (convert_field_value dto x).map (fun r => FieldTypeRList.cons r .nil))
    ∧ (∀ (dto : RPCAnnotationDTO) (s : String), s ∈ FIELD_TYPE_PRIMITIVES →
      convert_field_value dto (.str s) = .ok (.prim s))
    ∧ (∀ (dto : RPCAnnotationDTO) (s : String)
        (members : List (String × String)), s ∉ FIELD_TYPE_PRIMITIVES →
      lookupStr dto.enums s = some members →
      convert_field_value dto (.str s) = .ok (.enumRef s members))
    ∧ (∀ (dto : RPCAnnotationDTO) (s : String) (fields : FieldsR),
        s ∉ FIELD_TYPE_PRIMITIVES →
      lookupStr dto.enums s = none → lookupStr dto.objects s = some fields →
      convert_field_value dto (.str s) = .ok (.objRef fields)) := by
  refine ⟨?_, ?_, ?_, ?_, ?_⟩
  · intro dto xs
    simp [convert_field_value]
  · intro dto x
    cases h : convert_field_value dto x <;>
      simp [convert_field_list, h] <;> rfl
  · intro dto s hs
    simp [convert_field_value, field_type_to_python_type, hs]
  · intro dto s members hs he
    simp [convert_field_value, hs, he]
  · intro dto s fields hs he ho
    simp [convert_field_value, hs, he, ho]

/-- C7 witness: the amended string-resolution clause evaluated at the
primitive tag `int` in the empty compilation state. -/
theorem c7_witness :
    ("int" ∈ FIELD_TYPE_PRIMITIVES)
    ∧ convert_field_value ⟨[], [], []⟩ (.str "int") = .ok (.prim "int") :=
  ⟨by decide, c7_amended.2.2.1 ⟨[], [], []⟩ "int" (by decide)⟩

/-- C8: a field-type spec string that is neither a primitive tag nor an
already-compiled enum name nor an already-compiled object name fails with an
`AnnotationValidation` error carrying the offending name under
`unknown_signature`; and since compilation is one top-to-bottom pass
(enums, then objects, then methods), a forward reference from an object to a
later-declared object fails compilation the same way. -/
theorem c8_unknown_signature :
    (∀ (dto : RPCAnnotationDTO) (s : String), s ∉ FIELD_TYPE_PRIMITIVES →
      lookupStr dto.enums s = none → lookupStr dto.objects s = none →
      convert_field_value dto (.str s)
        = .error (AnnotationValidationError
            (.cons "unknown_signature" (.str s) .nil)))
    ∧ RPCAnnotationDTO.make
        ⟨none, some [("AObj", [("f", .str "BObj")]), ("BObj", [])], none⟩
        = .error (AnnotationValidationError
            (.cons "unknown_signature" (.str "BObj") .nil)) := by
  constructor
  · intro dto s h1 h2 h3
    simp [convert_field_value, h1, h2, h3]
  · decide

/-- C8 witness: the unknown-signature clause evaluated at the unknown name
`Missing` in the empty compilation state. -/
theorem c8_witness :
    ("Missing" ∉ FIELD_TYPE_PRIMITIVES)
    ∧ convert_field_value ⟨[], [], []⟩ (.str "Missing")
        = .error (AnnotationValidationError
            (.cons "unknown_signature" (.str "Missing") .nil)) :=
  ⟨by decide, c8_unknown_signature.1 ⟨[], [], []⟩ "Missing" (by decide) rfl rfl⟩

/-- C6 (code bug exhibit): `Request.__init__` always writes `trace_id` into
the headers, but `Response.__init__` never does, so the error response built
by `response_from_error` (headers defaulted to the empty dict) dumps a
headers segment without `trace_id` — and `Response.load` of a frame whose
headers lack `trace_id` indeed fails with the `trace_id: must be set`
validation error, so the system's own error frames violate the invariant the
loader enforces. -/
theorem c6_code_bug :
    (∀ (name : String) (tid : Option Json) (p h : Option JsonObj) (fresh : String),
      (Request.init name tid p h fresh).headers.hasKey "trace_id" = true)
    ∧ (response_from_error (UnknownMethodError "some_method") none).headers = .nil
    ∧ Json.dumpVal (.obj (response_from_error (UnknownMethodError "some_method")
        none).headers) = ['\x7b', '\x7d']
    ∧ (response_from_error (UnknownMethodError "some_method") none).headers.get
        "trace_id" = none
    ∧ Response.load ("m:ok".data ++ Json.dumpVal (.obj .nil)
          ++ Json.dumpVal (.obj .nil))
        = .error (.validation (ValidationError traceIdMustBeSetDetails)) := by
  refine ⟨?_, rfl, by decide, rfl, by decide⟩
  intro name tid p h fresh
  simp [Request.init, hasKey_setKey]

@[simp]
theorem except_bind_ok {ε α β : Type} (a : α) (f : α → Except ε β) :
    (Except.ok a : Except ε α).bind f = f a := rfl

@[simp]
theorem except_bind_error {ε α β : Type} (e : ε) (f : α → Except ε β) :
    (Except.error e : Except ε α).bind f = .error e := rfl

@[simp]
theorem except_map_ok {ε α β : Type} (a : α) (f : α → β) :
    (Except.ok a : Except ε α).map f = .ok (f a) := rfl

@[simp]
theorem except_map_error {ε α β : Type} (e : ε) (f : α → β) :
    (Except.error e : Except ε α).map f = .error e := rfl

theorem make_objects_list_append (a : List (String × List (String × FieldSpec)))
    (dto : RPCAnnotationDTO) (b : List (String × List (String × FieldSpec))) :
    make_objects_list dto (a ++ b)
      = (make_objects_list dto a).bind (fun d => make_objects_list d b) := by
  induction a generalizing dto with
  | nil => simp [make_objects_list]
  | cons p a2 ih =>
    obtain ⟨k, raw⟩ := p
    by_cases hk : check_camel_case k = true
    · simp only [List.cons_append, make_objects_list, if_pos hk]
      cases hfields : make_object_fields
          { dto with objects := setStr dto.objects k .nil } k raw with
      | error e => simp
      | ok dto2 => simp [ih dto2]
    · simp only [List.cons_append, make_objects_list, if_neg hk]
      simp

theorem make_methods_list_append
    (a : List (String × List (String × List (String × FieldSpec))))
    (dto : RPCAnnotationDTO)
    (b : List (String × List (String × List (String × FieldSpec)))) :
    make_methods_list dto (a ++ b)
      = (make_methods_list dto a).bind (fun d => make_methods_list d b) := by
  induction a generalizing dto with
  | nil => simp [make_methods_list]
  | cons p a2 ih =>
    obtain ⟨mk2, raw⟩ := p
    by_cases hk : pyIsLower mk2 = true
    · simp only [List.cons_append, make_methods_list, if_pos hk]
      cases hreq : lookupStr raw "request" with
      | none => simp
      | some reqFields =>
        cases hresp : lookupStr raw "response" with
        | none => simp
        | some respFields =>
          cases hr1 : convert_fields dto reqFields with
          | error e => simp [hr1]
          | ok reqR =>
            cases hr2 : convert_fields dto respFields with
            | error e => simp [hr1, hr2]
            | ok respR => simp [hr1, hr2, ih]
    · simp only [List.cons_append, make_methods_list, if_neg hk]
      simp

/-- C9: compilation fails with a case error naming the exact offending path
for every enum or object name rejected by the camel-case check (the entries
before it passing), and for every method name containing an uppercase
character; UpperCamelCase enum/object names pass the case check and
entirely-lower-case method names pass `str.islower()`. -/
theorem c9_case_enforcement :
    (∀ (pre : List (String × List (String × String))) (k : String)
        (v : List (String × String)) post,
      (∀ p ∈ pre, check_camel_case p.1 = true) → check_camel_case k = false →
      make_enums_list (pre ++ (k, v) :: post)
        = .error (AnnotationCaseError ("enums." ++ k) true))
    ∧ (∀ (dto dto2 : RPCAnnotationDTO)
        (entries : List (String × List (String × FieldSpec))) (k : String) raw post,
      make_objects_list dto entries = .ok dto2 → check_camel_case k = false →
      make_objects_list dto (entries ++ (k, raw) :: post)
        = .error (AnnotationCaseError ("objects." ++ k) true))
    ∧ (∀ (dto dto2 : RPCAnnotationDTO)
        (entries : List (String × List (String × List (String × FieldSpec))))
        (name : String) raw post,
      make_methods_list dto entries = .ok dto2 →
      name.data.any (fun c => c.isUpper) = true →
      make_methods_list dto (entries ++ (name, raw) :: post)
        = .error (AnnotationCaseError ("methods." ++ name) false))
    ∧ (∀ (c : Char) (rest : List Char), c.isUpper = true →
      rest.all (fun x => x.isAlpha || x.isDigit) = true →
      check_camel_case (String.mk (c :: rest)) = true)
    ∧ (∀ (s : String), s.data.any (fun c => c.isLower) = true →
      s.data.all (fun c => !c.isUpper) = true → pyIsLower s = true) := by
  refine ⟨?_, ?_, ?_, ?_, ?_⟩
  · intro pre k v post hpre hk
    induction pre with
    | nil => simp [make_enums_list, hk]
    | cons p pre2 ih =>
      have hp : check_camel_case p.1 = true := hpre p (by simp)
      have hpre2 : ∀ q ∈ pre2, check_camel_case q.1 = true :=
        fun q hq => hpre q (by simp [hq])
      obtain ⟨pk, pv⟩ := p
      simp only [List.cons_append, make_enums_list, if_pos hp, List.append_eq]
      rw [ih hpre2]
      rfl
  · intro dto dto2 entries k raw post hok hk
    rw [make_objects_list_append, hok]
    simp [make_objects_list, hk]
  · intro dto dto2 entries name raw post hok hup
    have hlow : pyIsLower name = false := by
      obtain ⟨c, hc, hcu⟩ := List.any_eq_true.mp hup
      simp only [pyIsLower, Bool.and_eq_false_iff]
      right
      rw [List.all_eq_false]
      exact ⟨c, hc, by simp [hcu]⟩
    rw [make_methods_list_append, hok]
    simp [make_methods_list, hlow]
  · intro c rest hc hrest
    simp [check_camel_case, hc, hrest]
  · intro s hany hall
    simp [pyIsLower, hany, hall]

/-- C9 witness: the enum clause evaluated at the lowercase-initial enum name
`myEnum` standing alone. -/
theorem c9_witness :
    check_camel_case "myEnum" = false
    ∧ make_enums_list [("myEnum", [])]
        = .error (AnnotationCaseError ("enums." ++ "myEnum") true) :=
  ⟨by decide, c9_case_enforcement.1 [] "myEnum" [] []
    (fun p hp => absurd hp (List.not_mem_nil p)) (by decide)⟩

/-- Well-formed example frame `m\x7b\x7d\x7b"trace_id":"t1"\x7d` used by the
dispatcher claims. -/
def wframe : List Char :=
  "m".data ++ Json.dumpVal (.obj .nil)
    ++ Json.dumpVal (.obj (.cons "trace_id" (.str "t1") .nil))

/-- The request `wframe` decodes to. -/
def wreq : Request :=
  Request.init "m" (some (.str "t1")) (some .nil)
    (some (.cons "trace_id" (.str "t1") .nil)) "f"

/-- An arbitrary connection context. -/
def wuser : UserIface := ⟨"127.0.0.1:40000"⟩

/-- A handler that raises `ValueError('boom')`. -/
def c2handler : HandlerMethod := fun _ _ => .exc "ValueError" "boom"

/-- A registry with the raising handler registered under `m`. -/
def c2mh : MessageHandler := ⟨[("m", c2handler)]⟩

/-- An empty registry. -/
def c3mh : MessageHandler := ⟨[]⟩

/-- C2 counterexample: a registered handler raises, and the dispatched
response's trace_id is `ZERO_TRACE_ID` (and its method name `__warning`),
not the originating request's trace_id `t1` (or method name `m`): `handle`
calls `response_from_error(error)` without the request. -/
theorem c2_counterexample :
    Request.load wframe "f" = .ok wreq
    ∧ wreq.trace_id = .str "t1"
    ∧ (c2mh.handle wframe wuser "f").trace_id = .str ZERO_TRACE_ID
    ∧ (c2mh.handle wframe wuser "f").trace_id ≠ wreq.trace_id
    ∧ (c2mh.handle wframe wuser "f").method_name ≠ wreq.method_name := by
  refine ⟨by decide, rfl, by decide, by decide, by decide⟩

/-- C2 (amended): when a registered handler raises, the dispatcher returns a
`Response` (the failure never escapes `handle`) with `success=false`, error
code `MethodInternal`, and the handler's exception class name and message in
the nested details — but its method name is the severity tag `__warning` and
its trace_id is `ZERO_TRACE_ID`, because `handle` does not pass the request
to `response_from_error`. -/
theorem c2_amended (mh : MessageHandler) (message : List Char) (user : UserIface)
    (fresh : String) (req : Request) (method : HandlerMethod) (cls msg : String)
    (hload : Request.load message fresh = .ok req)
    (hlook : lookupStr mh.methods req.method_name = some method)
    (hexc : method req user = .exc cls msg) :
    mh.handle message user fresh
      = response_from_error (MethodInternalError.from_base_exception cls msg) none
    ∧ (mh.handle message user fresh).success = false
    ∧ (mh.handle message user fresh).payload.get "error_code"
        = some (.str "MethodInternal")
    ∧ (mh.handle message user fresh).payload.get "details"
        = some (.obj (.cons "error_code" (.str "MethodInternal")
            (.cons "details" (.obj (.cons "exception" (.str cls)
              (.cons "exception_message" (.str msg) .nil))) .nil)))
    ∧ (mh.handle message user fresh).method_name = "__warning"
    ∧ (mh.handle message user fresh).trace_id = .str ZERO_TRACE_ID := by
  have hh : mh.handle message user fresh
      = response_from_error (MethodInternalError.from_base_exception cls msg) none := by
    simp [MessageHandler.handle, hload, hlook, hexc]
  refine ⟨hh, ?_, ?_, ?_, ?_, ?_⟩ <;> rw [hh] <;>
    simp [response_from_error, Response.init, orEmptyObj, JsonObj.get,
      MethodInternalError.from_base_exception, MethodInternalError,
      BaseErrorPy.init, logWARNING, logCRITICAL, logERROR]

/-- C2 witness: the amended statement applied to the `ValueError`-raising
handler registered under `m`, dispatched on `wframe`. -/
theorem c2_witness :
    Request.load wframe "f" = .ok wreq
    ∧ lookupStr c2mh.methods wreq.method_name = some c2handler
    ∧ c2handler wreq wuser = .exc "ValueError" "boom"
    ∧ (c2mh.handle wframe wuser "f").trace_id = .str ZERO_TRACE_ID :=
  ⟨by decide, rfl, rfl,
    (c2_amended c2mh wframe wuser "f" wreq c2handler "ValueError" "boom"
      (by decide) rfl rfl).2.2.2.2.2⟩

/-- C3 counterexample: dispatching a well-formed frame whose method is not
registered yields a response whose trace_id is `ZERO_TRACE_ID`, not the
decoded request's trace_id `t1`: `handle` does not pass the request to
`response_from_error`. -/
theorem c3_counterexample :
    Request.load wframe "f" = .ok wreq
    ∧ wreq.trace_id = .str "t1"
    ∧ (c3mh.handle wframe wuser "f").trace_id = .str ZERO_TRACE_ID
    ∧ (c3mh.handle wframe wuser "f").trace_id ≠ wreq.trace_id := by
  refine ⟨by decide, rfl, by decide, by decide⟩

/-- C3 (amended): dispatching a well-formed frame whose method name is not in
the registry returns a `Response` with `success=false`, error code
`UnknownMethod`, and the requested method name in the nested details — but
with method name `__warning` and trace_id `ZERO_TRACE_ID` rather than values
mirroring the decoded request, because `handle` does not pass the request to
`response_from_error`. -/
theorem c3_amended (mh : MessageHandler) (message : List Char) (user : UserIface)
    (fresh : String) (req : Request)
    (hload : Request.load message fresh = .ok req)
    (hlook : lookupStr mh.methods req.method_name = none) :
    mh.handle message user fresh
      = response_from_error (UnknownMethodError req.method_name) none
    ∧ (mh.handle message user fresh).success = false
    ∧ (mh.handle message user fresh).payload.get "error_code"
        = some (.str "UnknownMethod")
    ∧ (mh.handle message user fresh).payload.get "details"
        = some (.obj (.cons "error_code" (.str "UnknownMethod")
            (.cons "details" (.obj (.cons "method" (.str req.method_name) .nil))
              .nil)))
    ∧ (mh.handle message user fresh).method_name = "__warning"
    ∧ (mh.handle message user fresh).trace_id = .str ZERO_TRACE_ID := by
  have hh : mh.handle message user fresh
      = response_from_error (UnknownMethodError req.method_name) none := by
    simp [MessageHandler.handle, hload, hlook]
  refine ⟨hh, ?_, ?_, ?_, ?_, ?_⟩ <;> rw [hh] <;>
    simp [response_from_error, Response.init, orEmptyObj, JsonObj.get,
      UnknownMethodError, BaseErrorPy.init, logWARNING, logCRITICAL, logERROR]

/-- C3 witness: the amended statement applied to the empty registry,
dispatched on `wframe`. -/
theorem c3_witness :
    Request.load wframe "f" = .ok wreq
    ∧ lookupStr c3mh.methods wreq.method_name = none
    ∧ (c3mh.handle wframe wuser "f").payload.get "error_code"
        = some (.str "UnknownMethod") :=
  ⟨by decide, rfl,
    (c3_amended c3mh wframe wuser "f" wreq (by decide) rfl).2.2.1⟩

theorem pyFind_before {a : List Char} {c : Char} (h : c ∉ a) (suf : List Char) :
    pyFind (a ++ c :: suf) c 0 = a.length := by
  rw [pyFind_zero, findAux_not_mem h, findAux_self]
  simp

theorem pyFind_second {a mid : List Char} {c : Char} (hm : c ∉ mid) (suf : List Char) :
    pyFind (a ++ c :: (mid ++ c :: suf)) c (a.length + 1)
      = (a.length : Int) + 1 + mid.length := by
  unfold pyFind
  rw [show a ++ c :: (mid ++ c :: suf) = (a ++ [c]) ++ (mid ++ c :: suf) from by simp]
  rw [show a.length + 1 = (a ++ [c]).length from by simp]
  rw [List.drop_left, findAux_not_mem hm, findAux_self]
  simp

theorem pySlice_prefix (a b : List Char) :
    pySlice (a ++ b) 0 a.length = a := by
  unfold pySlice
  simp [List.take_left]

theorem pySlice_middle (a m b : List Char) :
    pySlice (a ++ m ++ b) a.length ((a.length : Int) + m.length) = m := by
  unfold pySlice
  rw [show ((a.length : Int) + m.length).toNat = (a ++ m).length from by
    simp
    omega]
  rw [List.take_left]
  rw [show ((a.length : Int)).toNat = a.length from by simp]
  rw [List.drop_left]

theorem pyDrop_suffix (a b : List Char) :
    pyDrop (a ++ b) a.length = b := by
  unfold pyDrop
  rw [show ((a.length : Int)).toNat = a.length from by simp]
  rw [List.drop_left]

theorem pyFind_zero_iff (cs : List Char) (c : Char) :
    pyFind cs c 0 = 0 ↔ ∃ t, cs = c :: t := by
  rw [pyFind_zero]
  cases cs with
  | nil => simp [findAux]
  | cons x xs =>
    constructor
    · intro h
      simp only [findAux] at h
      split at h
      · next hx =>
        subst hx
        exact ⟨xs, rfl⟩
      · have := findAux_ge h (by omega)
        omega
    · rintro ⟨t, ht⟩
      cases ht
      exact findAux_self c xs 0

theorem pyFind_start_cases (cs : List Char) (c : Char) (s : Nat) :
    pyFind cs c s = -1 ∨ (s : Int) ≤ pyFind cs c s := by
  unfold pyFind
  by_cases hneg : findAux (cs.drop s) c s = -1
  · exact Or.inl hneg
  · exact Or.inr (findAux_ge rfl hneg)

theorem pyFind_second_neg_iff {pre suf : List Char} (c : Char) :
    pyFind (pre ++ c :: suf) c (pre.length + 1) = -1 ↔ c ∉ suf := by
  unfold pyFind
  rw [show pre ++ c :: suf = (pre ++ [c]) ++ suf from by simp]
  rw [show pre.length + 1 = (pre ++ [c]).length from by simp]
  rw [List.drop_left]
  constructor
  · intro h hm
    have := findAux_nonneg_of_mem hm
      (i := ((pre ++ [c]).length : Int)) (by positivity)
    omega
  · intro h
    exact findAux_neg_of_not_mem h _

theorem count_decomp {pre suf : List Char} {c : Char} (hpre : c ∉ pre) :
    (pre ++ c :: suf).count c = suf.count c + 1 := by
  rw [List.count_append, List.count_cons_self]
  rw [List.count_eq_zero.mpr hpre]
  omega

theorem pyFind_decomp_zero {cs : List Char} {c : Char} {n : Int}
    (h : pyFind cs c 0 = n) (hn : n ≠ -1) :
    ∃ pre suf, cs = pre ++ c :: suf ∧ c ∉ pre ∧ n = pre.length := by
  rw [pyFind_zero] at h
  obtain ⟨pre, suf, hcs, hpre, hr⟩ := findAux_decomp h hn
  exact ⟨pre, suf, hcs, hpre, by omega⟩

theorem request_load_cond_iff (message : List Char) :
    (pyFind message '{' 0 = -1 ∨ pyFind message '{' 0 = 0
      ∨ pyFind message '{' (pyFind message '{' 0 + 1).toNat = -1
      ∨ pyFind message '{' (pyFind message '{' 0 + 1).toNat = 0
      ∨ pyFind message '{' 0 ≥ pyFind message '{' (pyFind message '{' 0 + 1).toNat)
    ↔ ('{' ∉ message
      ∨ (∃ t, message = '{' :: t)
      ∨ message.count '{' = 1
      ∨ ¬ (pyFind message '{' 0
            < pyFind message '{' (pyFind message '{' 0 + 1).toNat)) := by
  have h1 := pyFind_neg_iff message '{'
  have h2 := pyFind_zero_iff message '{'
  by_cases hneg : pyFind message '{' 0 = -1
  · have h3 : pyFind message '{' (pyFind message '{' 0 + 1).toNat = -1 := by
      rw [hneg]
      simpa using hneg
    constructor
    · intro _
      exact Or.inl (h1.mp hneg)
    · intro _
      exact Or.inl hneg
  · obtain ⟨pre, suf, hmsg, hpre, hlen⟩ := pyFind_decomp_zero rfl hneg
    have htoNat : (pyFind message '{' 0 + 1).toNat = pre.length + 1 := by
      omega
    have hsecond : pyFind message '{' (pyFind message '{' 0 + 1).toNat
        = pyFind (pre ++ '{' :: suf) '{' (pre.length + 1) := by
      rw [htoNat, hmsg]
    have h6 : pyFind message '{' (pyFind message '{' 0 + 1).toNat = -1 ↔ '{' ∉ suf := by
      rw [hsecond]
      exact pyFind_second_neg_iff '{'
    have h7 : message.count '{' = suf.count '{' + 1 := by
      rw [hmsg]
      exact count_decomp hpre
    have h8 := pyFind_start_cases message '{' (pyFind message '{' 0 + 1).toNat
    have hcount : message.count '{' = 1 ↔ '{' ∉ suf := by
      rw [h7]
      constructor
      · intro h
        exact List.count_eq_zero.mp (by omega)
      · intro h
        rw [List.count_eq_zero.mpr h]
    constructor
    · intro hC
      rcases hC with hC | hC | hC | hC | hC
      · exact absurd hC hneg
      · exact Or.inr (Or.inl (h2.mp hC))
      · exact Or.inr (Or.inr (Or.inl (hcount.mpr (h6.mp hC))))
      · rcases h8 with h8 | h8
        · exact Or.inr (Or.inr (Or.inl (hcount.mpr (h6.mp h8))))
        · omega
      · rcases h8 with h8 | h8
        · exact Or.inr (Or.inr (Or.inl (hcount.mpr (h6.mp h8))))
        · exfalso
          omega
    · intro hD
      rcases hD with hD | hD | hD | hD
      · exact absurd (h1.mpr hD) hneg
      · exact Or.inr (Or.inl (h2.mpr hD))
      · exact Or.inr (Or.inr (Or.inl (h6.mpr (hcount.mp hD))))
      · rcases h8 with h8 | h8
        · exact Or.inr (Or.inr (Or.inl h8))
        · right; right; right; right
          omega

/-- C5: `Request.load` fails with the invalid-message-format validation
error, constructing no partial `Request`, exactly when the frame has no
opening brace at all, or the first brace is at position 0 (empty method
name), or only one brace is present, or the payload start is not strictly
before the headers start; otherwise the method name is the text before the
first brace and payload and headers are parsed from the two brace-delimited
segments (the headers of the built request then carrying the stored
trace_id). -/
theorem c5_request_malformation (message : List Char) (fresh : String) :
    (Request.load message fresh
        = .error (ValidationError invalidMessageFormatDetails)
      ↔ ('{' ∉ message
        ∨ (∃ t, message = '{' :: t)
        ∨ message.count '{' = 1
        ∨ ¬ (pyFind message '{' 0
              < pyFind message '{' (pyFind message '{' 0 + 1).toNat)))
    ∧ (∀ r, Request.load message fresh = .ok r →
        r.method_name = String.mk (pySlice message 0 (pyFind message '{' 0))
        ∧ Json.parseObjTop (pySlice message (pyFind message '{' 0)
            (pyFind message '{' (pyFind message '{' 0 + 1).toNat)) = some r.payload
        ∧ ∃ hdrs, Json.parseObjTop (pyDrop message
              (pyFind message '{' (pyFind message '{' 0 + 1).toNat)) = some hdrs
            ∧ r.headers = hdrs.setKey "trace_id" r.trace_id) := by
  have hiff := request_load_cond_iff message
  by_cases hcond : (pyFind message '{' 0 = -1 ∨ pyFind message '{' 0 = 0
      ∨ pyFind message '{' (pyFind message '{' 0 + 1).toNat = -1
      ∨ pyFind message '{' (pyFind message '{' 0 + 1).toNat = 0
      ∨ pyFind message '{' 0 ≥ pyFind message '{' (pyFind message '{' 0 + 1).toNat)
  · have hload : Request.load message fresh
        = .error (ValidationError invalidMessageFormatDetails) := by
      simp only [Request.load]
      rw [if_pos hcond]
    refine ⟨⟨fun _ => hiff.mp hcond, fun _ => hload⟩, ?_⟩
    intro r hr
    rw [hload] at hr
    exact absurd hr (by simp)
  · have hload : Request.load message fresh
        = (match Json.parseObjTop (pySlice message (pyFind message '{' 0)
              (pyFind message '{' (pyFind message '{' 0 + 1).toNat)),
            Json.parseObjTop (pyDrop message
              (pyFind message '{' (pyFind message '{' 0 + 1).toNat)) with
          | some payload, some headers =>
            .ok (Request.init
              (String.mk (pySlice message 0 (pyFind message '{' 0)))
              (headers.get "trace_id") (some payload) (some headers) fresh)
          | _, _ => .error (ValidationError.from_base_exception "JSONDecodeError" "")) := by
      simp only [Request.load]
      rw [if_neg hcond]
    constructor
    · rw [hload]
      cases hp : Json.parseObjTop (pySlice message (pyFind message '{' 0)
          (pyFind message '{' (pyFind message '{' 0 + 1).toNat)) with
      | none =>
        cases hq : Json.parseObjTop (pyDrop message
            (pyFind message '{' (pyFind message '{' 0 + 1).toNat)) with
        | none =>
          refine iff_of_false ?_ (fun hD => hcond (hiff.mpr hD))
          simp [ValidationError.from_base_exception, ValidationError,
            BaseErrorPy.init, invalidMessageFormatDetails, orEmptyObj]
        | some hdrs =>
          refine iff_of_false ?_ (fun hD => hcond (hiff.mpr hD))
          simp [ValidationError.from_base_exception, ValidationError,
            BaseErrorPy.init, invalidMessageFormatDetails, orEmptyObj]
      | some payload =>
        cases hq : Json.parseObjTop (pyDrop message
            (pyFind message '{' (pyFind message '{' 0 + 1).toNat)) with
        | none =>
          refine iff_of_false ?_ (fun hD => hcond (hiff.mpr hD))
          simp [ValidationError.from_base_exception, ValidationError,
            BaseErrorPy.init, invalidMessageFormatDetails, orEmptyObj]
        | some hdrs =>
          refine iff_of_false ?_ (fun hD => hcond (hiff.mpr hD))
          simp
    · intro r hr
      rw [hload] at hr
      cases hp : Json.parseObjTop (pySlice message (pyFind message '{' 0)
          (pyFind message '{' (pyFind message '{' 0 + 1).toNat)) with
      | none =>
        rw [hp] at hr
        cases hq : Json.parseObjTop (pyDrop message
            (pyFind message '{' (pyFind message '{' 0 + 1).toNat)) <;>
          rw [hq] at hr <;> exact absurd hr (by simp)
      | some payload =>
        rw [hp] at hr
        cases hq : Json.parseObjTop (pyDrop message
            (pyFind message '{' (pyFind message '{' 0 + 1).toNat)) with
        | none =>
          rw [hq] at hr
          exact absurd hr (by simp)
        | some hdrs =>
          rw [hq] at hr
          have hr2 : Request.init
              (String.mk (pySlice message 0 (pyFind message '{' 0)))
              (hdrs.get "trace_id") (some payload) (some hdrs) fresh = r := by
            injection hr
          subst hr2
          exact ⟨rfl, rfl, hdrs, rfl, rfl⟩

/-- C5 witness: the second clause of the malformation theorem evaluated on
the well-formed frame `wframe`. -/
theorem c5_witness :
    Request.load wframe "f" = .ok wreq
    ∧ wreq.method_name = String.mk (pySlice wframe 0 (pyFind wframe '{' 0)) :=
  ⟨by decide, ((c5_request_malformation wframe "f").2 wreq (by decide)).1⟩

/-- C4 counterexample: the status token is not validated.  The frame
`m:zz\x7b\x7d\x7b"trace_id":"t"\x7d` carries the token `zz`, which is neither
`ok` nor `err`, yet `Response.load` succeeds (with `success = false`) instead
of failing with the invalid-message-format error as the claim requires. -/
theorem c4_counterexample :
    pySlice ("m:zz".data ++ Json.dumpVal (.obj .nil)
        ++ Json.dumpVal (.obj (.cons "trace_id" (.str "t") .nil)))
      (pyFind ("m:zz".data ++ Json.dumpVal (.obj .nil)
        ++ Json.dumpVal (.obj (.cons "trace_id" (.str "t") .nil))) ':' 0 + 1)
      (pyFind ("m:zz".data ++ Json.dumpVal (.obj .nil)
        ++ Json.dumpVal (.obj (.cons "trace_id" (.str "t") .nil))) '{'
        (pyFind ("m:zz".data ++ Json.dumpVal (.obj .nil)
          ++ Json.dumpVal (.obj (.cons "trace_id" (.str "t") .nil))) ':' 0 + 1).toNat)
      = ['z', 'z']
    ∧ (['z', 'z'] : List Char) ≠ ['o', 'k']
    ∧ (['z', 'z'] : List Char) ≠ ['e', 'r', 'r']
    ∧ Response.load ("m:zz".data ++ Json.dumpVal (.obj .nil)
        ++ Json.dumpVal (.obj (.cons "trace_id" (.str "t") .nil)))
      = .ok (Response.init "m" (.str "t") false (some .nil)
          (some (.cons "trace_id" (.str "t") .nil))) := by
  refine ⟨by decide, by decide, by decide, by decide⟩

/-- C4 (amended): `Response.load` locates the first `:` anywhere in the
message and the first brace after it; absence of `:` yields the
invalid-message-format validation error; but the status token between the
`:` and the payload brace is never validated — whenever decoding succeeds,
`success` is simply the test "token = ok", so any token other than `ok`
(including tokens that are neither `ok` nor `err`) decodes with
`success = false`. -/
theorem c4_amended (message : List Char) :
    (pyFind message ':' 0 = -1 →
      Response.load message
        = .error (.validation (ValidationError invalidMessageFormatDetails)))
    ∧ (∀ r, Response.load message = .ok r →
        (r.success = true
          ↔ pySlice message (pyFind message ':' 0 + 1)
              (pyFind message '{' (pyFind message ':' 0 + 1).toNat) = ['o', 'k'])) := by
  constructor
  · intro hss
    simp only [Response.load]
    rw [if_pos (Or.inr (Or.inr (Or.inl hss)))]
  · intro r hr
    simp only [Response.load] at hr
    by_cases hcond : (pyFind message '{' (pyFind message ':' 0 + 1).toNat = -1
        ∨ pyFind message '{' (pyFind message ':' 0 + 1).toNat = 0
        ∨ pyFind message ':' 0 = -1 ∨ pyFind message ':' 0 = 0
        ∨ pyFind message '{'
            (pyFind message '{' (pyFind message ':' 0 + 1).toNat + 1).toNat = -1
        ∨ pyFind message '{'
            (pyFind message '{' (pyFind message ':' 0 + 1).toNat + 1).toNat = 0
        ∨ pyFind message ':' 0
            ≥ pyFind message '{'
                (pyFind message '{' (pyFind message ':' 0 + 1).toNat + 1).toNat
        ∨ pyFind message '{' (pyFind message ':' 0 + 1).toNat
            ≥ pyFind message '{'
                (pyFind message '{' (pyFind message ':' 0 + 1).toNat + 1).toNat)
    · rw [if_pos hcond] at hr
      exact absurd hr (by simp)
    · rw [if_neg hcond] at hr
      rcases hp : Json.parseObjTop (pySlice message
          (pyFind message '{' (pyFind message ':' 0 + 1).toNat)
          (pyFind message '{'
            (pyFind message '{' (pyFind message ':' 0 + 1).toNat + 1).toNat))
        with _ | payload <;> rw [hp] at hr
      · rcases hq : Json.parseObjTop (pyDrop message
            (pyFind message '{'
              (pyFind message '{' (pyFind message ':' 0 + 1).toNat + 1).toNat))
          with _ | hdrs <;> rw [hq] at hr <;> exact absurd hr (by simp)
      · rcases hq : Json.parseObjTop (pyDrop message
            (pyFind message '{'
              (pyFind message '{' (pyFind message ':' 0 + 1).toNat + 1).toNat))
          with _ | hdrs <;> rw [hq] at hr
        · exact absurd hr (by simp)
        · dsimp only at hr
          rcases ht : hdrs.get "trace_id" with _ | tid <;> rw [ht] at hr <;>
            dsimp only at hr
          · exact absurd hr (by simp)
          · by_cases htr : tid.truthy = true
            · rw [if_pos htr] at hr
              have hr2 : Response.init
                  (String.mk (pySlice message 0 (pyFind message ':' 0))) tid
                  (pySlice message (pyFind message ':' 0 + 1)
                    (pyFind message '{' (pyFind message ':' 0 + 1).toNat)
                    == ['o', 'k'])
                  (some payload) (some hdrs) = r := by
                injection hr
              rw [← hr2]
              simp [Response.init]
            · rw [if_neg htr] at hr
              exact absurd hr (by simp)

/-- C4 witness: the amended theorem's clauses evaluated on a colon-free frame
and on the well-formed `ok` response frame. -/
theorem c4_witness :
    pyFind ['m'] ':' 0 = -1
    ∧ Response.load ['m']
        = .error (.validation (ValidationError invalidMessageFormatDetails))
    ∧ Response.load ("m:ok".data ++ Json.dumpVal (.obj .nil)
        ++ Json.dumpVal (.obj (.cons "trace_id" (.str "t") .nil)))
      = .ok (Response.init "m" (.str "t") true (some .nil)
          (some (.cons "trace_id" (.str "t") .nil)))
    ∧ ((Response.init "m" (.str "t") true (some .nil)
          (some (.cons "trace_id" (.str "t") .nil))).success = true
        ↔ pySlice ("m:ok".data ++ Json.dumpVal (.obj .nil)
            ++ Json.dumpVal (.obj (.cons "trace_id" (.str "t") .nil)))
          (pyFind ("m:ok".data ++ Json.dumpVal (.obj .nil)
            ++ Json.dumpVal (.obj (.cons "trace_id" (.str "t") .nil))) ':' 0 + 1)
          (pyFind ("m:ok".data ++ Json.dumpVal (.obj .nil)
            ++ Json.dumpVal (.obj (.cons "trace_id" (.str "t") .nil))) '{'
            (pyFind ("m:ok".data ++ Json.dumpVal (.obj .nil)
              ++ Json.dumpVal (.obj (.cons "trace_id" (.str "t") .nil))) ':' 0
              + 1).toNat) = ['o', 'k']) :=
  ⟨by decide, (c4_amended ['m']).1 (by decide), by decide,
    (c4_amended ("m:ok".data ++ Json.dumpVal (.obj .nil)
        ++ Json.dumpVal (.obj (.cons "trace_id" (.str "t") .nil)))).2 _ (by decide)⟩

theorem pyFind_from {mid suf : List Char} {c : Char} (pre : List Char) (hm : c ∉ mid) :
    pyFind (pre ++ (mid ++ c :: suf)) c pre.length
      = (pre.length : Int) + mid.length := by
  unfold pyFind
  rw [List.drop_left, findAux_not_mem hm, findAux_self]

theorem pySlice_from (pre m b : List Char) :
    pySlice (pre ++ (m ++ b)) pre.length ((pre.length : Int) + m.length) = m := by
  have h := pySlice_middle pre m b
  rwa [List.append_assoc] at h

theorem pyDrop_from (pre b : List Char) : pyDrop (pre ++ b) pre.length = b :=
  pyDrop_suffix pre b

theorem request_roundtrip_core (a : List Char) (payload headers : JsonObj)
    (fresh2 : String) (ha : a ≠ []) (hbrace : '{' ∉ a)
    (hpwf : Json.wfB (.obj payload) = true) (hhwf : Json.wfB (.obj headers) = true)
    (hflat : '{' ∉ JsonObj.dumpItems payload ++ ['}']) :
    Request.load (a ++ Json.dumpVal (.obj payload) ++ Json.dumpVal (.obj headers))
        fresh2
      = .ok (Request.init (String.mk a) (headers.get "trace_id") (some payload)
          (some headers) fresh2) := by
  have hP : Json.dumpVal (.obj payload)
      = '{' :: (JsonObj.dumpItems payload ++ ['}']) := by
    simp [Json.dumpVal]
  have hH : Json.dumpVal (.obj headers)
      = '{' :: (JsonObj.dumpItems headers ++ ['}']) := by
    simp [Json.dumpVal]
  have halen : 1 ≤ a.length := by
    cases a with
    | nil => exact absurd rfl ha
    | cons x xs => simp
  have hmsg1 : a ++ Json.dumpVal (.obj payload) ++ Json.dumpVal (.obj headers)
      = a ++ '{' :: ((JsonObj.dumpItems payload ++ ['}'])
          ++ Json.dumpVal (.obj headers)) := by
    rw [hP, List.append_assoc, List.cons_append]
  have hmsg2 : a ++ Json.dumpVal (.obj payload) ++ Json.dumpVal (.obj headers)
      = (a ++ ['{']) ++ ((JsonObj.dumpItems payload ++ ['}'])
          ++ '{' :: (JsonObj.dumpItems headers ++ ['}'])) := by
    rw [hP, hH]
    simp
  have hps : pyFind (a ++ Json.dumpVal (.obj payload)
      ++ Json.dumpVal (.obj headers)) '{' 0 = a.length := by
    rw [hmsg1]
    exact pyFind_before hbrace _
  have htoNat : ((a.length : Int) + 1).toNat = (a ++ ['{']).length := by
    simp
  have hhs : pyFind (a ++ Json.dumpVal (.obj payload)
        ++ Json.dumpVal (.obj headers)) '{' ((a.length : Int) + 1).toNat
      = (a.length : Int) + 1 + (JsonObj.dumpItems payload ++ ['}']).length := by
    rw [htoNat, hmsg2, pyFind_from (a ++ ['{']) hflat]
    simp only [List.length_append, List.length_singleton]
    push_cast
    ring
  have hslice0 : pySlice (a ++ Json.dumpVal (.obj payload)
      ++ Json.dumpVal (.obj headers)) 0 (a.length : Int) = a := by
    rw [List.append_assoc]
    exact pySlice_prefix a _
  have hsliceP : pySlice (a ++ Json.dumpVal (.obj payload)
        ++ Json.dumpVal (.obj headers)) (a.length : Int)
        ((a.length : Int) + 1 + (JsonObj.dumpItems payload ++ ['}']).length)
      = Json.dumpVal (.obj payload) := by
    have h := pySlice_from a (Json.dumpVal (.obj payload))
      (Json.dumpVal (.obj headers))
    rw [← List.append_assoc] at h
    rw [show ((a.length : Int) + 1 + (JsonObj.dumpItems payload ++ ['}']).length)
        = (a.length : Int) + (Json.dumpVal (.obj payload)).length from by
      rw [hP]
      simp only [List.length_cons, List.length_append, List.length_singleton]
      push_cast
      ring]
    exact h
  have hdropH : pyDrop (a ++ Json.dumpVal (.obj payload)
        ++ Json.dumpVal (.obj headers))
        ((a.length : Int) + 1 + (JsonObj.dumpItems payload ++ ['}']).length)
      = Json.dumpVal (.obj headers) := by
    have h := pyDrop_from (a ++ Json.dumpVal (.obj payload))
      (Json.dumpVal (.obj headers))
    rw [show ((a.length : Int) + 1 + (JsonObj.dumpItems payload ++ ['}']).length)
        = ((a ++ Json.dumpVal (.obj payload)).length : Int) from by
      rw [hP]
      simp only [List.length_cons, List.length_append, List.length_singleton]
      push_cast
      ring]
    exact h
  have hcond : ¬(pyFind (a ++ Json.dumpVal (.obj payload)
        ++ Json.dumpVal (.obj headers)) '{' 0 = -1
      ∨ pyFind (a ++ Json.dumpVal (.obj payload)
          ++ Json.dumpVal (.obj headers)) '{' 0 = 0
      ∨ pyFind (a ++ Json.dumpVal (.obj payload) ++ Json.dumpVal (.obj headers))
          '{' (pyFind (a ++ Json.dumpVal (.obj payload)
            ++ Json.dumpVal (.obj headers)) '{' 0 + 1).toNat = -1
      ∨ pyFind (a ++ Json.dumpVal (.obj payload) ++ Json.dumpVal (.obj headers))
          '{' (pyFind (a ++ Json.dumpVal (.obj payload)
            ++ Json.dumpVal (.obj headers)) '{' 0 + 1).toNat = 0
      ∨ pyFind (a ++ Json.dumpVal (.obj payload)
            ++ Json.dumpVal (.obj headers)) '{' 0
          ≥ pyFind (a ++ Json.dumpVal (.obj payload)
              ++ Json.dumpVal (.obj headers)) '{'
              (pyFind (a ++ Json.dumpVal (.obj payload)
                ++ Json.dumpVal (.obj headers)) '{' 0 + 1).toNat) := by
    rw [hps]
    rw [hhs]
    omega
  simp only [Request.load]
  rw [if_neg hcond, hps, hhs, hslice0, hsliceP, hdropH,
    parseObjTop_dumpVal payload hpwf, parseObjTop_dumpVal headers hhwf]

theorem response_roundtrip_core (a tok : List Char) (payload headers : JsonObj)
    (ha : a ≠ []) (hcolon : ':' ∉ a) (htokbrace : '{' ∉ tok)
    (hpwf : Json.wfB (.obj payload) = true) (hhwf : Json.wfB (.obj headers) = true)
    (hflat : '{' ∉ JsonObj.dumpItems payload ++ ['}']) :
    Response.load (a ++ ':' :: tok ++ Json.dumpVal (.obj payload)
        ++ Json.dumpVal (.obj headers))
      = (match headers.get "trace_id" with
        | some tid =>
          if tid.truthy then
            .ok (Response.init (String.mk a) tid (tok == ['o', 'k'])
              (some payload) (some headers))
          else .error (.validation (ValidationError traceIdMustBeSetDetails))
        | none => .error (.validation (ValidationError traceIdMustBeSetDetails))) := by
  have hP : Json.dumpVal (.obj payload)
      = '{' :: (JsonObj.dumpItems payload ++ ['}']) := by
    simp [Json.dumpVal]
  have hH : Json.dumpVal (.obj headers)
      = '{' :: (JsonObj.dumpItems headers ++ ['}']) := by
    simp [Json.dumpVal]
  have halen : 1 ≤ a.length := by
    cases a with
    | nil => exact absurd rfl ha
    | cons x xs => simp
  have hmsgSS : a ++ ':' :: tok ++ Json.dumpVal (.obj payload)
        ++ Json.dumpVal (.obj headers)
      = a ++ ':' :: (tok ++ (Json.dumpVal (.obj payload)
          ++ Json.dumpVal (.obj headers))) := by
    simp
  have hmsgPS : a ++ ':' :: tok ++ Json.dumpVal (.obj payload)
        ++ Json.dumpVal (.obj headers)
      = (a ++ [':']) ++ (tok ++ '{' :: ((JsonObj.dumpItems payload ++ ['}'])
          ++ Json.dumpVal (.obj headers))) := by
    rw [hP]
    simp
  have hmsgHS : a ++ ':' :: tok ++ Json.dumpVal (.obj payload)
        ++ Json.dumpVal (.obj headers)
      = ((a ++ [':']) ++ tok ++ ['{']) ++ ((JsonObj.dumpItems payload ++ ['}'])
          ++ '{' :: (JsonObj.dumpItems headers ++ ['}'])) := by
    rw [hP, hH]
    simp
  have hmsgP2 : a ++ ':' :: tok ++ Json.dumpVal (.obj payload)
        ++ Json.dumpVal (.obj headers)
      = ((a ++ [':']) ++ tok) ++ (Json.dumpVal (.obj payload)
          ++ Json.dumpVal (.obj headers)) := by
    simp
  have hmsgD : a ++ ':' :: tok ++ Json.dumpVal (.obj payload)
        ++ Json.dumpVal (.obj headers)
      = (((a ++ [':']) ++ tok) ++ Json.dumpVal (.obj payload))
          ++ Json.dumpVal (.obj headers) := by
    simp
  have ht1 : ((a.length : Int) + 1).toNat = (a ++ [':']).length := by
    simp
  have ht2 : ((a.length : Int) + 1 + tok.length + 1).toNat
      = ((a ++ [':']) ++ tok ++ ['{']).length := by
    simp only [List.length_append, List.length_singleton]
    omega
  have hss : pyFind (a ++ ':' :: tok ++ Json.dumpVal (.obj payload)
      ++ Json.dumpVal (.obj headers)) ':' 0 = (a.length : Int) := by
    rw [hmsgSS]
    exact pyFind_before hcolon _
  have hps : pyFind (a ++ ':' :: tok ++ Json.dumpVal (.obj payload)
        ++ Json.dumpVal (.obj headers)) '{' ((a.length : Int) + 1).toNat
      = (a.length : Int) + 1 + tok.length := by
    rw [ht1, hmsgPS, pyFind_from (a ++ [':']) htokbrace]
    simp only [List.length_append, List.length_singleton]
    push_cast
    ring
  have hhs : pyFind (a ++ ':' :: tok ++ Json.dumpVal (.obj payload)
        ++ Json.dumpVal (.obj headers)) '{'
        ((a.length : Int) + 1 + tok.length + 1).toNat
      = (a.length : Int) + 1 + tok.length + 1
          + (JsonObj.dumpItems payload ++ ['}']).length := by
    rw [ht2, hmsgHS, pyFind_from ((a ++ [':']) ++ tok ++ ['{']) hflat]
    simp only [List.length_append, List.length_singleton]
    push_cast
    ring
  have hslice0 : pySlice (a ++ ':' :: tok ++ Json.dumpVal (.obj payload)
      ++ Json.dumpVal (.obj headers)) 0 (a.length : Int) = a := by
    rw [hmsgSS]
    exact pySlice_prefix a _
  have hsliceTok : pySlice (a ++ ':' :: tok ++ Json.dumpVal (.obj payload)
        ++ Json.dumpVal (.obj headers)) ((a.length : Int) + 1)
        ((a.length : Int) + 1 + tok.length) = tok := by
    have h := pySlice_from (a ++ [':']) tok
      ('{' :: ((JsonObj.dumpItems payload ++ ['}']) ++ Json.dumpVal (.obj headers)))
    rw [← hmsgPS] at h
    rw [show ((a.length : Int) + 1 + (tok.length : Int))
        = (((a ++ [':']).length : Int) + tok.length) from by
      simp only [List.length_append, List.length_singleton]
      push_cast
      ring]
    rw [show ((a.length : Int) + 1) = (((a ++ [':']).length : Int)) from by
      simp only [List.length_append, List.length_singleton]
      push_cast
      ring]
    exact h
  have hsliceP : pySlice (a ++ ':' :: tok ++ Json.dumpVal (.obj payload)
        ++ Json.dumpVal (.obj headers)) ((a.length : Int) + 1 + tok.length)
        ((a.length : Int) + 1 + tok.length + 1
          + (JsonObj.dumpItems payload ++ ['}']).length)
      = Json.dumpVal (.obj payload) := by
    have h := pySlice_from ((a ++ [':']) ++ tok) (Json.dumpVal (.obj payload))
      (Json.dumpVal (.obj headers))
    rw [← hmsgP2] at h
    rw [show ((a.length : Int) + 1 + (tok.length : Int) + 1
          + ((JsonObj.dumpItems payload ++ ['}']).length : Int))
        = ((((a ++ [':']) ++ tok).length : Int)
            + ((Json.dumpVal (.obj payload)).length : Int)) from by
      rw [hP]
      simp only [List.length_cons, List.length_append, List.length_singleton,
        List.length_nil]
      push_cast
      ring]
    rw [show ((a.length : Int) + 1 + (tok.length : Int))
        = ((((a ++ [':']) ++ tok).length : Int)) from by
      simp only [List.length_append, List.length_singleton]
      push_cast
      ring]
    exact h
  have hdropH : pyDrop (a ++ ':' :: tok ++ Json.dumpVal (.obj payload)
        ++ Json.dumpVal (.obj headers))
        ((a.length : Int) + 1 + tok.length + 1
          + (JsonObj.dumpItems payload ++ ['}']).length)
      = Json.dumpVal (.obj headers) := by
    have h := pyDrop_from (((a ++ [':']) ++ tok) ++ Json.dumpVal (.obj payload))
      (Json.dumpVal (.obj headers))
    rw [← hmsgD] at h
    rw [show ((a.length : Int) + 1 + (tok.length : Int) + 1
          + ((JsonObj.dumpItems payload ++ ['}']).length : Int))
        = (((((a ++ [':']) ++ tok) ++ Json.dumpVal (.obj payload)).length : Int))
        from by
      rw [hP]
      simp only [List.length_cons, List.length_append, List.length_singleton,
        List.length_nil]
      push_cast
      ring]
    exact h
  have hcond : ¬(pyFind (a ++ ':' :: tok ++ Json.dumpVal (.obj payload)
        ++ Json.dumpVal (.obj headers)) '{'
        (pyFind (a ++ ':' :: tok ++ Json.dumpVal (.obj payload)
          ++ Json.dumpVal (.obj headers)) ':' 0 + 1).toNat = -1
      ∨ pyFind (a ++ ':' :: tok ++ Json.dumpVal (.obj payload)
          ++ Json.dumpVal (.obj headers)) '{'
          (pyFind (a ++ ':' :: tok ++ Json.dumpVal (.obj payload)
            ++ Json.dumpVal (.obj headers)) ':' 0 + 1).toNat = 0
      ∨ pyFind (a ++ ':' :: tok ++ Json.dumpVal (.obj payload)
          ++ Json.dumpVal (.obj headers)) ':' 0 = -1
      ∨ pyFind (a ++ ':' :: tok ++ Json.dumpVal (.obj payload)
          ++ Json.dumpVal (.obj headers)) ':' 0 = 0
      ∨ pyFind (a ++ ':' :: tok ++ Json.dumpVal (.obj payload)
          ++ Json.dumpVal (.obj headers)) '{'
          (pyFind (a ++ ':' :: tok ++ Json.dumpVal (.obj payload)
            ++ Json.dumpVal (.obj headers)) '{'
            (pyFind (a ++ ':' :: tok ++ Json.dumpVal (.obj payload)
              ++ Json.dumpVal (.obj headers)) ':' 0 + 1).toNat + 1).toNat = -1
      ∨ pyFind (a ++ ':' :: tok ++ Json.dumpVal (.obj payload)
          ++ Json.dumpVal (.obj headers)) '{'
          (pyFind (a ++ ':' :: tok ++ Json.dumpVal (.obj payload)
            ++ Json.dumpVal (.obj headers)) '{'
            (pyFind (a ++ ':' :: tok ++ Json.dumpVal (.obj payload)
              ++ Json.dumpVal (.obj headers)) ':' 0 + 1).toNat + 1).toNat = 0
      ∨ pyFind (a ++ ':' :: tok ++ Json.dumpVal (.obj payload)
            ++ Json.dumpVal (.obj headers)) ':' 0
          ≥ pyFind (a ++ ':' :: tok ++ Json.dumpVal (.obj payload)
              ++ Json.dumpVal (.obj headers)) '{'
              (pyFind (a ++ ':' :: tok ++ Json.dumpVal (.obj payload)
                ++ Json.dumpVal (.obj headers)) '{'
                (pyFind (a ++ ':' :: tok ++ Json.dumpVal (.obj payload)
                  ++ Json.dumpVal (.obj headers)) ':' 0 + 1).toNat + 1).toNat
      ∨ pyFind (a ++ ':' :: tok ++ Json.dumpVal (.obj payload)
            ++ Json.dumpVal (.obj headers)) '{'
            (pyFind (a ++ ':' :: tok ++ Json.dumpVal (.obj payload)
              ++ Json.dumpVal (.obj headers)) ':' 0 + 1).toNat
          ≥ pyFind (a ++ ':' :: tok ++ Json.dumpVal (.obj payload)
              ++ Json.dumpVal (.obj headers)) '{'
              (pyFind (a ++ ':' :: tok ++ Json.dumpVal (.obj payload)
                ++ Json.dumpVal (.obj headers)) '{'
                (pyFind (a ++ ':' :: tok ++ Json.dumpVal (.obj payload)
                  ++ Json.dumpVal (.obj headers)) ':' 0 + 1).toNat + 1).toNat) := by
    rw [hss]
    rw [hps]
    rw [hhs]
    omega
  simp only [Response.load]
  rw [if_neg hcond, hss, hps, hhs, hslice0, hsliceTok, hsliceP, hdropH,
    parseObjTop_dumpVal payload hpwf, parseObjTop_dumpVal headers hhwf]

/-- C1 (counterexample): the unrestricted round-trip claim fails.  A request
whose payload holds a nested object dumps to a frame whose second `\x7b` sits
inside the payload, so `Request.load` splits the frame at the wrong place and
raises a wrapped `orjson.JSONDecodeError` instead of returning the request. -/
theorem c1_counterexample :
    Request.load (Request.dump (Request.init "m" (some (.str "t"))
        (some (.cons "a" (.obj .nil) .nil)) (some .nil) "f")) "f"
      ≠ .ok (Request.init "m" (some (.str "t"))
        (some (.cons "a" (.obj .nil) .nil)) (some .nil) "f") := by
  decide

/-- C1 (amended): load after dump is the identity only on flat frames.  For a
`Request` built with a truthy trace id, a method name that is nonempty and free
of `\x7b`, well-formed (duplicate-free) payload and headers dicts, and a
payload whose serialized body contains no `\x7b` (no nested object inside the
payload), `Request.load (Request.dump r)` returns `r` with method name, trace
id, payload and headers preserved.  For a `Response` built with a truthy trace
id that its headers dict binds under `trace_id`, a method name that is nonempty
and free of `:`, and the same well-formedness and flatness conditions,
`Response.load (Response.dump r)` returns `r` with the `success` flag also
preserved. -/
theorem c1_amended :
    (∀ (name : String) (tid : Json) (payload headers : JsonObj)
        (fresh fresh2 : String),
      name.data ≠ [] → '{' ∉ name.data →
      tid.truthy = true → Json.wfB tid = true →
      Json.wfB (.obj payload) = true → Json.wfB (.obj headers) = true →
      '{' ∉ JsonObj.dumpItems payload ++ ['}'] →
      Request.load (Request.dump (Request.init name (some tid) (some payload)
          (some headers) fresh)) fresh2
        = .ok (Request.init name (some tid) (some payload) (some headers) fresh))
    ∧ (∀ (name : String) (tid : Json) (success : Bool) (payload headers : JsonObj),
      name.data ≠ [] → ':' ∉ name.data →
      headers.get "trace_id" = some tid → tid.truthy = true →
      Json.wfB (.obj payload) = true → Json.wfB (.obj headers) = true →
      '{' ∉ JsonObj.dumpItems payload ++ ['}'] →
      Response.load (Response.dump (Response.init name tid success (some payload)
          (some headers)))
        = .ok (Response.init name tid success (some payload) (some headers))) := by
  constructor
  · intro name tid payload headers fresh fresh2 hne hbrace htru htwf hpwf hhwf hflat
    have hwfset : Json.wfB (.obj (headers.setKey "trace_id" tid)) = true := by
      simp only [Json.wfB]
      exact wfB_setKey (by simpa [Json.wfB] using hhwf) htwf _
    have hcore := request_roundtrip_core name.data payload
      (headers.setKey "trace_id" tid) fresh2 hne hbrace hpwf hwfset hflat
    rw [get_setKey, string_mk_data] at hcore
    have hdump : Request.dump (Request.init name (some tid) (some payload)
          (some headers) fresh)
        = name.data ++ Json.dumpVal (.obj payload)
          ++ Json.dumpVal (.obj (headers.setKey "trace_id" tid)) := by
      simp [Request.dump, Request.init, orEmptyObj, htru]
    have hinit : Request.init name (some tid) (some payload)
          (some (headers.setKey "trace_id" tid)) fresh2
        = Request.init name (some tid) (some payload) (some headers) fresh := by
      simp [Request.init, orEmptyObj, htru, setKey_setKey]
    rw [hdump, hcore, hinit]
  · intro name tid success payload headers hne hcolon hget htru hpwf hhwf hflat
    have htokbrace : '{' ∉ (if success then ['o', 'k'] else ['e', 'r', 'r']) := by
      cases success <;> decide
    have hcore := response_roundtrip_core name.data
      (if success then ['o', 'k'] else ['e', 'r', 'r']) payload headers
      hne hcolon htokbrace hpwf hhwf hflat
    rw [hget] at hcore
    dsimp only at hcore
    rw [if_pos htru, string_mk_data] at hcore
    have htok : ((if success then ['o', 'k'] else ['e', 'r', 'r']) == ['o', 'k'])
        = success := by
      cases success <;> decide
    rw [htok] at hcore
    have hdump : Response.dump (Response.init name tid success (some payload)
          (some headers))
        = name.data ++ ':' :: (if success then ['o', 'k'] else ['e', 'r', 'r'])
          ++ Json.dumpVal (.obj payload) ++ Json.dumpVal (.obj headers) := rfl
    rw [hdump]
    exact hcore

/-- C1 (witness): the amended round-trip theorem applied to a concrete flat
request and a concrete flat response with satisfiable hypotheses. -/
theorem c1_witness :
    ("m".data ≠ [] ∧ '{' ∉ "m".data)
    ∧ Request.load (Request.dump (Request.init "m" (some (.str "t"))
        (some (.cons "a" (.str "b") .nil)) (some .nil) "f")) "g"
      = .ok (Request.init "m" (some (.str "t"))
        (some (.cons "a" (.str "b") .nil)) (some .nil) "f")
    ∧ Response.load (Response.dump (Response.init "m" (.str "t") true
        (some .nil) (some (.cons "trace_id" (.str "t") .nil))))
      = .ok (Response.init "m" (.str "t") true
        (some .nil) (some (.cons "trace_id" (.str "t") .nil))) :=
  ⟨⟨by decide, by decide⟩,
    c1_amended.1 "m" (.str "t") (.cons "a" (.str "b") .nil) .nil "f" "g"
      (by decide) (by decide) (by decide) (by decide) (by decide) (by decide)
      (by decide),
    c1_amended.2 "m" (.str "t") true .nil (.cons "trace_id" (.str "t") .nil)
      (by decide) (by decide) (by decide) (by decide) (by decide) (by decide)
      (by decide)⟩

end SmartRpc
